import Mathlib

/-!
# Verification of the CSS color converter pipeline

A shallow embedding of the color conversion service of this repository
(`COLOR_REGEX`, the four per-notation parse functions, the sRGB/HSL/Oklch
conversion pipeline, the formatters and `convertCssColors`).

Embedding conventions:
* JavaScript numbers are modelled by `ℚ`.  All arithmetic reachable by the
  claims below is exact decimal arithmetic, where `Float` and `ℚ` agree to
  the displayed precision; the transcendental library calls used by the
  oklch conversions (`Math.cos`, `Math.sin`, `Math.cbrt`, `Math.sqrt`,
  `Math.atan2`, `Math.pow` at the two fixed exponents, and `Math.PI`) are
  abstracted as the fields of a `JsMath` record, and every theorem that can
  touch them is universally quantified over that record.
* `parseFloat` applied to a capture of the character class of digits and
  dots is modelled by `parseFloatQ : List Char → Option ℚ`, with `none`
  standing for `NaN` (reachable only for a capture consisting of dots
  alone).  For an alpha capture the source merely threads the value into a
  `x !== undefined && x < 1` guard, where `NaN` behaves exactly like an
  absent alpha; but for the degenerate hsl/oklch magnitude captures ("."
  and the like, e.g. in `hsl(1, ., .)`) the source produces NaN channels
  that pass `Math.max(0, Math.min(255, ·))` unchanged and reach the
  formatter (emitting NaN-poisoned text such as `hsl(0, NaN%, NaN%)`),
  while this model treats such a token as a parse failure.  Because ℚ has
  no NaN, every theorem below that bounds the channels of a sample at a
  formatter is therefore stated only for samples parsed from hex or rgb
  tokens, whose channel captures are pure digit or hex-digit runs and so
  never produce NaN in the source; no theorem quantifies over the
  collapsed degenerate hsl/oklch parses.
* The regular expressions of the source are implemented as deterministic
  matchers.  This is faithful because every adjacent pair of repeated
  character classes in those patterns is disjoint (digits versus
  separators, non-parenthesis versus parenthesis, ...), so the maximal
  munch split is the only split a backtracking engine can accept, and each
  optional group is followed by a character that its own class can never
  match, so the greedy attempt order collapses to "take it iff present".
* Exceptions: the source wraps every per-token conversion in `try/catch`
  and returns the original match on failure.  The embedding is total, and
  parse failure is the explicit `Option.none`; "no exception escapes" is
  totality of `convertCssColors`.
-/

namespace ColorConv

/-! ## Character classes (the classes of `COLOR_REGEX` and the inner patterns) -/

/-- `\d` of JavaScript regexes. -/
def isDigitCh (c : Char) : Bool := decide (48 ≤ c.toNat ∧ c.toNat ≤ 57)

/-- `\s` of JavaScript regexes, restricted to the ASCII range (the Unicode
space characters are omitted; no claim involves them). -/
def isSpaceCh (c : Char) : Bool :=
  decide (c.toNat = 32 ∨ c.toNat = 9 ∨ c.toNat = 10 ∨ c.toNat = 13 ∨ c.toNat = 11 ∨ c.toNat = 12)

/-- The class `[,\s]` separating rgb channels. -/
def isRgbSepCh (c : Char) : Bool := decide (c.toNat = 44) || isSpaceCh c

/-- The class `[,?\s]` separating the hsl hue from the saturation (the
source pattern really contains the literal question mark). -/
def isHslSepCh (c : Char) : Bool := decide (c.toNat = 44 ∨ c.toNat = 63) || isSpaceCh c

/-- The class `[\d.]` of the fractional captures. -/
def isDigitDotCh (c : Char) : Bool := isDigitCh c || decide (c.toNat = 46)

/-- The class `[a-fA-F0-9]` of the hex alternative of `COLOR_REGEX`. -/
def isHexDigitCh (c : Char) : Bool :=
  isDigitCh c || decide ((97 ≤ c.toNat ∧ c.toNat ≤ 102) ∨ (65 ≤ c.toNat ∧ c.toNat ≤ 70))

/-- The class `[^\)]` of the functional alternatives of `COLOR_REGEX`. -/
def notRParen (c : Char) : Bool := decide (c.toNat ≠ 41)

/-! ## Decimal and hexadecimal numerals -/

/-- The character of the decimal digit `n < 10`. -/
def digitCh (n : Nat) : Char := Char.ofNat (48 + n)

/-- The decimal digits of `n`, least significant first, with fuel (any
fuel above `n` is enough; structural recursion keeps this computable by
plain reduction). -/
def natDigitsCore : Nat → Nat → List Char
  | 0, _ => []
  | fuel + 1, n => if n < 10 then [digitCh n] else digitCh (n % 10) :: natDigitsCore fuel (n / 10)

/-- The decimal digits of `n`, least significant first. -/
def natDigitsAux (n : Nat) : List Char := natDigitsCore (n + 1) n

/-- The decimal digits of `n`, most significant first. -/
def natDigits (n : Nat) : List Char := (natDigitsAux n).reverse

/-- The decimal rendering of a natural number (`String(n)` of JavaScript
for a non-negative integral number). -/
def jsNatRepr (n : Nat) : String := String.mk (natDigits n)

/-- The decimal rendering of an integer (template interpolation `${n}` of
an integral JavaScript number). -/
def jsIntStr (n : Int) : String :=
  if n < 0 then ("-") ++ jsNatRepr n.natAbs else jsNatRepr n.toNat

/-- `parseInt(s, 10)` on a capture of `\d+`: digits, most significant
first, folded into a natural number.  (The source receives such captures
only; `Float` precision loss above 2^53 is not modelled.) -/
def parseNatCh (cs : List Char) : Nat :=
  cs.foldl (fun acc c => acc * 10 + (c.toNat - 48)) 0

/-- The value of one hexadecimal digit character (either case). -/
def hexDigitVal (c : Char) : Nat :=
  if 48 ≤ c.toNat ∧ c.toNat ≤ 57 then c.toNat - 48
  else if 97 ≤ c.toNat ∧ c.toNat ≤ 102 then c.toNat - 87
  else if 65 ≤ c.toNat ∧ c.toNat ≤ 70 then c.toNat - 55
  else 0

/-- `parseInt(s, 16)` on a run of hexadecimal digit characters. -/
def parseHexCh (cs : List Char) : Nat :=
  cs.foldl (fun acc c => acc * 16 + hexDigitVal c) 0

/-- The character of the hexadecimal digit `n < 16` (lowercase, as
`Number.prototype.toString(16)` produces). -/
def hexCh (n : Nat) : Char :=
  if n < 10 then digitCh n else Char.ofNat (87 + n)

/-- The hexadecimal digits of `n`, least significant first, with fuel. -/
def natHexCore : Nat → Nat → List Char
  | 0, _ => []
  | fuel + 1, n => if n < 16 then [hexCh n] else hexCh (n % 16) :: natHexCore fuel (n / 16)

/-- The hexadecimal digits of `n`, least significant first. -/
def natHexAux (n : Nat) : List Char := natHexCore (n + 1) n

/-- `n.toString(16)` for a natural number. -/
def natHexStr (n : Nat) : String := String.mk (natHexAux n).reverse

/-- `parseFloat` on a capture of `[\d.]+`: the longest valid decimal
prefix, `none` for `NaN` (no digit before the first stray character). -/
def parseFloatQ (cs : List Char) : Option ℚ :=
  let ip := cs.takeWhile isDigitCh
  let r1 := cs.dropWhile isDigitCh
  match r1 with
  | '.' :: r2 =>
    let fp := r2.takeWhile isDigitCh
    if ip = [] ∧ fp = [] then none
    else some ((parseNatCh ip : ℚ) + (parseNatCh fp : ℚ) / (10 : ℚ) ^ fp.length)
  | _ => if ip = [] then none else some ((parseNatCh ip : ℚ))

/-! ## Rounding and fixed-point formatting -/

/-- `Math.abs` (also the sign split of `toFixed`); kept as an explicit
conditional so that it evaluates by plain reduction. -/
def qAbs (q : ℚ) : ℚ := if q < 0 then -q else q

/-- `Math.round`: ties toward positive infinity. -/
def jsRound (q : ℚ) : Int := (q + 1 / 2).floor

/-- The scaled integer of `Number.prototype.toFixed(d)`: the magnitude is
rounded with ties away from zero (the ECMAScript "pick the larger `n`"
rule applied after the sign is split off). -/
def fixedDigits (d : Nat) (q : ℚ) : Nat := ((qAbs q * (10 : ℚ) ^ d + 1 / 2).floor).toNat

/-- Left-pad a digit run with zeros to width `d`. -/
def padZeroList (d : Nat) (cs : List Char) : List Char :=
  List.replicate (d - cs.length) '0' ++ cs

/-- `q.toFixed(d)`. -/
def jsToFixed (d : Nat) (q : ℚ) : String :=
  let sgn : String := if q < 0 then ("-") else ("")
  let n := fixedDigits d q
  if d = 0 then sgn ++ jsNatRepr n
  else sgn ++ jsNatRepr (n / 10 ^ d) ++ (".") ++ String.mk (padZeroList d (natDigits (n % 10 ^ d)))

/-- `${parseFloat(q.toFixed(2))}`: the number at two decimal places,
rendered in the shortest round-trip form JavaScript prints for it. -/
def alphaNumStr (q : ℚ) : String :=
  let n := fixedDigits 2 q
  if n = 0 then ("0")
  else
    let sgn : String := if q < 0 then ("-") else ("")
    if n % 100 = 0 then sgn ++ jsNatRepr (n / 100)
    else if n % 10 = 0 then sgn ++ jsNatRepr (n / 100) ++ (".") ++ String.mk [digitCh (n / 10 % 10)]
    else sgn ++ jsNatRepr (n / 100) ++ (".") ++ String.mk (padZeroList 2 (natDigits (n % 100)))

/-- `.replace(/\.0$/, '')`. -/
def stripDotZero (s : String) : String :=
  match s.data.reverse with
  | '0' :: '.' :: t => String.mk t.reverse
  | _ => s

/-- `.replace(/\.00$/, '')`. -/
def stripDot00 (s : String) : String :=
  match s.data.reverse with
  | '0' :: '0' :: '.' :: t => String.mk t.reverse
  | _ => s

/-- `.replace(/(\.\d*?)0+$/, '$1')` and `.replace(/0+$/, '')`: on a
`toFixed` output (which always contains a decimal point) both remove
exactly the trailing run of zero characters. -/
def stripTrailZeros (s : String) : String :=
  String.mk (s.data.reverse.dropWhile (fun c => c = '0')).reverse

/-- `.replace(/\.$/, '')`. -/
def stripTrailDot (s : String) : String :=
  match s.data.reverse with
  | '.' :: t => String.mk t.reverse
  | _ => s

/-- `.replace(/^0\./, '.')`. -/
def collapseZeroDot (s : String) : String :=
  match s.data with
  | '0' :: '.' :: t => String.mk ('.' :: t)
  | _ => s

/-! ## The data model -/

/-- The source interface `RGB { r, g, b, a? }` (the common intermediate
representation; the spec calls it ColorSample). -/
structure RGB where
  r : ℚ
  g : ℚ
  b : ℚ
  a : Option ℚ
deriving DecidableEq, Repr

/-- The source interface `HSL { h, s, l, a? }`. -/
structure HSL where
  h : ℚ
  s : ℚ
  l : ℚ
  a : Option ℚ
deriving DecidableEq, Repr

/-- The source interface `Oklch { L, C, h, a? }`. -/
structure Oklch where
  L : ℚ
  C : ℚ
  h : ℚ
  a : Option ℚ
deriving DecidableEq, Repr

/-- The source interface `ConvertOptions`.  The TypeScript union type
`ColorFormat` is erased at runtime, and the `switch` of
`convertCssColors` has an explicit `default:` branch for values outside
the four known strings, so the format is modelled as a plain string.
The second field is `useCssSyntax` in the source. -/
structure ConvertOptions where
  format : String
  useCss : Bool
deriving DecidableEq, Repr

/-- The transcendental library functions used by the oklch conversions,
abstracted: `cos`, `sin`, `sqrt`, `cbrt`, `atan2`, `Math.PI`, and
`Math.pow` at the two fixed exponents `2.4` and `1/2.4`. -/
structure JsMath where
  cos : ℚ → ℚ
  sin : ℚ → ℚ
  sqrt : ℚ → ℚ
  cbrt : ℚ → ℚ
  atan2 : ℚ → ℚ → ℚ
  pi : ℚ
  pow24 : ℚ → ℚ
  powInv24 : ℚ → ℚ

/-- A concrete inhabitant of `JsMath`, used only to instantiate theorems
at code paths that never call these functions. -/
def jsMath0 : JsMath :=
  ⟨fun _ => 0, fun _ => 0, fun _ => 0, fun _ => 0, fun _ _ => 0, 0, fun _ => 0, fun _ => 0⟩

/-! ## The inner patterns of the four parse functions

Each source parse function runs an (unanchored) regex search over the
token; `firstXMatch` walks the start positions left to right, and
`matchXAt` is the anchored deterministic matcher described in the header.
-/

/-- The captures of `/rgba?\((\d+)[,\s]+(\d+)[,\s]+(\d+)(?:\s*[,\/]\s*([\d.]+))?\)/`. -/
structure RgbCap where
  c1 : List Char
  c2 : List Char
  c3 : List Char
  al : Option (List Char)
deriving DecidableEq, Repr

/-- The shared tail `(?:\s*[,\/]\s*([\d.]+))?\)` of the rgb and hsl
patterns.  `some` is the group present (its capture), `none` covers both
"group absent" (the caller then still checks for `)`) and total failure. -/
def rgbAlphaTail (r5 : List Char) : Option (List Char) :=
  match r5.dropWhile isSpaceCh with
  | c :: r6 =>
    if c = ',' ∨ c = '/' then
      let r7 := r6.dropWhile isSpaceCh
      let a := r7.takeWhile isDigitDotCh
      let r8 := r7.dropWhile isDigitDotCh
      if a = [] then none
      else
        match r8 with
        | c2 :: _ => if c2 = ')' then some a else none
        | [] => none
    else none
  | [] => none

/-- The argument part of the rgb pattern, after `rgba?\(`. -/
def matchRgbArgs (r0 : List Char) : Option RgbCap :=
  let d1 := r0.takeWhile isDigitCh
  let r1 := r0.dropWhile isDigitCh
  if d1 = [] then none else
  let s1 := r1.takeWhile isRgbSepCh
  let r2 := r1.dropWhile isRgbSepCh
  if s1 = [] then none else
  let d2 := r2.takeWhile isDigitCh
  let r3 := r2.dropWhile isDigitCh
  if d2 = [] then none else
  let s2 := r3.takeWhile isRgbSepCh
  let r4 := r3.dropWhile isRgbSepCh
  if s2 = [] then none else
  let d3 := r4.takeWhile isDigitCh
  let r5 := r4.dropWhile isDigitCh
  if d3 = [] then none else
  match rgbAlphaTail r5 with
  | some al => some ⟨d1, d2, d3, some al⟩
  | none =>
    match r5 with
    | c :: _ => if c = ')' then some ⟨d1, d2, d3, none⟩ else none
    | [] => none

/-- The keyword tail `a?\(`: the greedy optional `a` followed by the
literal parenthesis (if an `a` is present but not followed by `(`, the
`a`-less branch fails on the `a` itself, so "consume the `a` iff
present" is exact). -/
def afterKw (rest : List Char) : Option (List Char) :=
  match rest with
  | c :: r =>
    if c = 'a' then
      match r with
      | c2 :: r0 => if c2 = '(' then some r0 else none
      | [] => none
    else if c = '(' then some r else none
  | [] => none

/-- The anchored matcher of the rgb pattern. -/
def matchRgbAt (cs : List Char) : Option RgbCap :=
  match cs with
  | c1 :: c2 :: c3 :: rest =>
    if c1 = 'r' ∧ c2 = 'g' ∧ c3 = 'b' then (afterKw rest).bind matchRgbArgs else none
  | _ => none

/-- The leftmost match of the rgb pattern (`String.prototype.match`). -/
def firstRgbMatch : List Char → Option RgbCap
  | [] => none
  | c :: t =>
    match matchRgbAt (c :: t) with
    | some cap => some cap
    | none => firstRgbMatch t

/-- Source `rgbStringToRgb`. -/
def rgbStringToRgb (s : String) : Option RGB :=
  match firstRgbMatch s.data with
  | none => none
  | some cap =>
    some ⟨(parseNatCh cap.c1 : ℚ), (parseNatCh cap.c2 : ℚ), (parseNatCh cap.c3 : ℚ),
      cap.al.bind parseFloatQ⟩

/-- The captures of
`/hsla?\((\d+)(?:deg)?[,?\s]+([\d.]+)%?[,\s]+([\d.]+)%?(?:\s*[,\/]\s*([\d.]+))?\)/`. -/
structure HslCap where
  hStr : List Char
  sStr : List Char
  lStr : List Char
  al : Option (List Char)
deriving DecidableEq, Repr

/-- The optional literal `deg` (consumed iff present; skipping a present
`deg` always fails on the following separator class). -/
def skipDeg (r : List Char) : List Char :=
  match r with
  | c1 :: c2 :: c3 :: t => if c1 = 'd' ∧ c2 = 'e' ∧ c3 = 'g' then t else r
  | _ => r

/-- The optional `%` (consumed iff present; the following classes never
contain `%`). -/
def skipPercent (r : List Char) : List Char :=
  match r with
  | c :: t => if c = '%' then t else r
  | [] => r

/-- The argument part of the hsl pattern, after `hsla?\(`. -/
def matchHslArgs (r0 : List Char) : Option HslCap :=
  let d1 := r0.takeWhile isDigitCh
  let r1 := r0.dropWhile isDigitCh
  if d1 = [] then none else
  let r1 := skipDeg r1
  let s1 := r1.takeWhile isHslSepCh
  let r2 := r1.dropWhile isHslSepCh
  if s1 = [] then none else
  let v2 := r2.takeWhile isDigitDotCh
  let r3 := r2.dropWhile isDigitDotCh
  if v2 = [] then none else
  let r3 := skipPercent r3
  let s2 := r3.takeWhile isRgbSepCh
  let r4 := r3.dropWhile isRgbSepCh
  if s2 = [] then none else
  let v3 := r4.takeWhile isDigitDotCh
  let r5 := r4.dropWhile isDigitDotCh
  if v3 = [] then none else
  let r5 := skipPercent r5
  match rgbAlphaTail r5 with
  | some al => some ⟨d1, v2, v3, some al⟩
  | none =>
    match r5 with
    | c :: _ => if c = ')' then some ⟨d1, v2, v3, none⟩ else none
    | [] => none

/-- The anchored matcher of the hsl pattern. -/
def matchHslAt (cs : List Char) : Option HslCap :=
  match cs with
  | c1 :: c2 :: c3 :: rest =>
    if c1 = 'h' ∧ c2 = 's' ∧ c3 = 'l' then (afterKw rest).bind matchHslArgs else none
  | _ => none

/-- The leftmost match of the hsl pattern. -/
def firstHslMatch : List Char → Option HslCap
  | [] => none
  | c :: t =>
    match matchHslAt (c :: t) with
    | some cap => some cap
    | none => firstHslMatch t

/-- JavaScript `%` (remainder, truncating): on the non-negative values it
is applied to here it coincides with this floor form. -/
def jsMod2 (x : ℚ) : ℚ := x - 2 * ((x / 2).floor : ℚ)

/-- Source `hslStringToRgb` (parse, then the hue-chroma-midpoint
construction).  The `| _, _ => none` arm is the NaN deviation described
in the header: on an all-dot saturation or lightness capture (e.g. the
token `hsl(1, ., .)`) the source computes with `parseFloat('.') = NaN`
and returns NaN channels that survive the clamp and reach the formatter,
whereas this embedding reports parse failure.  No channel-bound theorem
below quantifies over hsl parses, so nothing is proved about the source
through this collapsed arm. -/
def hslStringToRgb (s : String) : Option RGB :=
  match firstHslMatch s.data with
  | none => none
  | some cap =>
    let h : ℚ := (parseNatCh cap.hStr : ℚ)
    match parseFloatQ cap.sStr, parseFloatQ cap.lStr with
    | some sv, some lv =>
      let s' := sv / 100
      let l := lv / 100
      let c := (1 - qAbs (2 * l - 1)) * s'
      let x := c * (1 - qAbs (jsMod2 (h / 60) - 1))
      let m := l - c / 2
      let rgb0 : ℚ × ℚ × ℚ :=
        if 0 ≤ h ∧ h < 60 then (c, x, 0)
        else if 60 ≤ h ∧ h < 120 then (x, c, 0)
        else if 120 ≤ h ∧ h < 180 then (0, c, x)
        else if 180 ≤ h ∧ h < 240 then (0, x, c)
        else if 240 ≤ h ∧ h < 300 then (x, 0, c)
        else if 300 ≤ h ∧ h < 360 then (c, 0, x)
        else (0, 0, 0)
      some ⟨((jsRound ((rgb0.1 + m) * 255) : ℤ) : ℚ),
        ((jsRound ((rgb0.2.1 + m) * 255) : ℤ) : ℚ),
        ((jsRound ((rgb0.2.2 + m) * 255) : ℤ) : ℚ),
        cap.al.bind parseFloatQ⟩
    | _, _ => none

/-- `hex.replace(/^#/, '')` of `hexToRgb`. -/
def hexStrip (s : String) : List Char :=
  match s.data with
  | c :: t => if c = '#' then t else s.data
  | [] => s.data

/-- The 3- and 4-digit shorthand expansion of `hexToRgb` (each nibble
duplicated). -/
def hexExpand (cs : List Char) : List Char :=
  match cs with
  | [a, b, c, d] => [a, a, b, b, c, c, d, d]
  | [a, b, c] => [a, a, b, b, c, c]
  | t => t

/-- Source `hexToRgb`: strip `#`, expand the 3- and 4-digit shorthands,
require length 6 or 8. -/
def hexToRgb (s : String) : Option RGB :=
  match hexExpand (hexStrip s) with
  | [h1, h2, h3, h4, h5, h6] =>
    some ⟨(parseHexCh [h1, h2] : ℚ), (parseHexCh [h3, h4] : ℚ), (parseHexCh [h5, h6] : ℚ), none⟩
  | [h1, h2, h3, h4, h5, h6, h7, h8] =>
    some ⟨(parseHexCh [h1, h2] : ℚ), (parseHexCh [h3, h4] : ℚ), (parseHexCh [h5, h6] : ℚ),
      some ((parseHexCh [h7, h8] : ℚ) / 255)⟩
  | _ => none

/-- The captures of
`/oklch\(\s*([\d.]+)%?\s+([\d.]+)\s+([\d.]+)(?:deg)?(?:\s*\/\s*([\d.]+%?))?\s*\)/`
(the alpha capture keeps its `%` sign, as in the source). -/
structure OklchCap where
  lStr : List Char
  cStr : List Char
  hStr : List Char
  al : Option (List Char)
deriving DecidableEq, Repr

/-- The tail `(?:\s*\/\s*([\d.]+%?))?\s*\)` of the oklch pattern;
`none` covers both "group absent" and failure, as in `rgbAlphaTail`. -/
def oklchAlphaTail (r : List Char) : Option (List Char) :=
  match r.dropWhile isSpaceCh with
  | c :: r1 =>
    if c = '/' then
      let r2 := r1.dropWhile isSpaceCh
      let a := r2.takeWhile isDigitDotCh
      let r3 := r2.dropWhile isDigitDotCh
      if a = [] then none
      else
        match r3 with
        | c2 :: r4 =>
          if c2 = '%' then
            match r4.dropWhile isSpaceCh with
            | c3 :: _ => if c3 = ')' then some (a ++ ['%']) else none
            | [] => none
          else
            match (c2 :: r4).dropWhile isSpaceCh with
            | c3 :: _ => if c3 = ')' then some a else none
            | [] => none
        | [] => none
    else none
  | [] => none

/-- The argument part of the oklch pattern, after `oklch\(`. -/
def matchOklchArgs (r0 : List Char) : Option OklchCap :=
  let r0 := r0.dropWhile isSpaceCh
  let v1 := r0.takeWhile isDigitDotCh
  let r1 := r0.dropWhile isDigitDotCh
  if v1 = [] then none else
  let r1 := skipPercent r1
  let s1 := r1.takeWhile isSpaceCh
  let r2 := r1.dropWhile isSpaceCh
  if s1 = [] then none else
  let v2 := r2.takeWhile isDigitDotCh
  let r3 := r2.dropWhile isDigitDotCh
  if v2 = [] then none else
  let s2 := r3.takeWhile isSpaceCh
  let r4 := r3.dropWhile isSpaceCh
  if s2 = [] then none else
  let v3 := r4.takeWhile isDigitDotCh
  let r5 := r4.dropWhile isDigitDotCh
  if v3 = [] then none else
  let r5 := skipDeg r5
  match oklchAlphaTail r5 with
  | some al => some ⟨v1, v2, v3, some al⟩
  | none =>
    match r5.dropWhile isSpaceCh with
    | c :: _ => if c = ')' then some ⟨v1, v2, v3, none⟩ else none
    | [] => none

/-- The anchored matcher of the oklch pattern. -/
def matchOklchAt (cs : List Char) : Option OklchCap :=
  match cs with
  | c1 :: c2 :: c3 :: c4 :: c5 :: c6 :: rest =>
    if c1 = 'o' ∧ c2 = 'k' ∧ c3 = 'l' ∧ c4 = 'c' ∧ c5 = 'h' ∧ c6 = '(' then
      matchOklchArgs rest
    else none
  | _ => none

/-- The leftmost match of the oklch pattern. -/
def firstOklchMatch : List Char → Option OklchCap
  | [] => none
  | c :: t =>
    match matchOklchAt (c :: t) with
    | some cap => some cap
    | none => firstOklchMatch t

/-! ## The conversion pipeline -/

/-- An Oklab value (the source's anonymous record `{ L, a, b }`). -/
structure Lab where
  L : ℚ
  a : ℚ
  b : ℚ
deriving DecidableEq, Repr

/-- Source `oklchToOklab`. -/
def oklchToOklab (M : JsMath) (o : Oklch) : Lab :=
  let rad := o.h * (M.pi / 180)
  ⟨o.L, o.C * M.cos rad, o.C * M.sin rad⟩

/-- Source `linearRgbToSrgb`: clamp the linear value into `[0,1]`, apply
the two-segment gamma curve, scale by 255 and round. -/
def linearRgbToSrgb (M : JsMath) (c : ℚ) : ℚ :=
  let v := max 0 (min 1 c)
  let srgb := if v ≤ 0.0031308 then 12.92 * v else 1.055 * M.powInv24 v - 0.055
  ((jsRound (srgb * 255) : ℤ) : ℚ)

/-- Source `oklchStringToRgb`: parse (with the `%`-versus-bare alpha
rule), then Oklch → Oklab → non-linear LMS → linear LMS → linear sRGB →
sRGB.  The `| _, _, _ => none` arm is the NaN deviation described in the
header: on an all-dot L/C/h capture the source computes with NaN and
sends NaN-poisoned channels through the clamp to the formatter, whereas
this embedding reports parse failure.  No channel-bound theorem below
quantifies over oklch parses, so nothing is proved about the source
through this collapsed arm. -/
def oklchStringToRgb (M : JsMath) (s : String) : Option RGB :=
  match firstOklchMatch s.data with
  | none => none
  | some cap =>
    match parseFloatQ cap.lStr, parseFloatQ cap.cStr, parseFloatQ cap.hStr with
    | some lv, some cv, some hv =>
      let a : Option ℚ :=
        match cap.al with
        | none => none
        | some al =>
          if al.getLast? = some '%' then (parseFloatQ al).map (fun q => q / 100)
          else parseFloatQ al
      let o : Oklch := ⟨lv / 100, cv, hv, a⟩
      let lab := oklchToOklab M o
      let l_ := lab.L + 0.3963377774 * lab.a + 0.2158037573 * lab.b
      let m_ := lab.L - 0.1055613458 * lab.a - 0.0638541728 * lab.b
      let s_ := lab.L - 0.0894841775 * lab.a - 1.2914855480 * lab.b
      let l := l_ * l_ * l_
      let m := m_ * m_ * m_
      let s2 := s_ * s_ * s_
      let lr := 4.0767416621 * l - 3.3077115913 * m + 0.2309699292 * s2
      let lg := -1.2684380046 * l + 2.6097574011 * m - 0.3413193965 * s2
      let lb := -0.0041960863 * l - 0.7034186147 * m + 1.7076147010 * s2
      some ⟨linearRgbToSrgb M lr, linearRgbToSrgb M lg, linearRgbToSrgb M lb, o.a⟩
    | _, _, _ => none

/-- `Math.round(c).toString(16).padStart(2, '0')` (the `toHex` helper of
`rgbToHex`). -/
def toHexByte (c : ℚ) : String :=
  let n := jsRound c
  let s := if n < 0 then ("-") ++ natHexStr n.natAbs else natHexStr n.toNat
  if s.length < 2 then String.mk (List.replicate (2 - s.length) '0' ++ s.data) else s

/-- Source `rgbToHex`: three hex pairs, a fourth only when alpha is
present and strictly below 1. -/
def rgbToHex (v : RGB) : String :=
  let base := toHexByte v.r ++ toHexByte v.g ++ toHexByte v.b
  match v.a with
  | some a => if a < 1 then base ++ toHexByte (a * 255) else base
  | none => base

/-- Source `rgbToHsl` (the `switch (max)` is first-match on `r`, `g`,
`b`, as strict equality makes it). -/
def rgbToHsl (v : RGB) : HSL :=
  let r := v.r / 255
  let g := v.g / 255
  let b := v.b / 255
  let mx := max r (max g b)
  let mn := min r (min g b)
  let l := (mx + mn) / 2
  if mx = mn then ⟨0, 0, l * 100, v.a⟩
  else
    let d := mx - mn
    let s := if l > 1 / 2 then d / (2 - mx - mn) else d / (mx + mn)
    let h :=
      if mx = r then (g - b) / d + (if g < b then 6 else 0)
      else if mx = g then (b - r) / d + 2
      else (r - g) / d + 4
    ⟨h / 6 * 360, s * 100, l * 100, v.a⟩

/-- Source `srgbToLinearRgb`. -/
def srgbToLinearRgb (M : JsMath) (c : ℚ) : ℚ :=
  let v := c / 255
  if v ≤ 0.04045 then v / 12.92 else M.pow24 ((v + 0.055) / 1.055)

/-- Source `linearRgbToXyz`. -/
def linearRgbToXyz (r g b : ℚ) : ℚ × ℚ × ℚ :=
  (r * 0.4124564 + g * 0.3575761 + b * 0.1804375,
   r * 0.2126729 + g * 0.7151522 + b * 0.0721750,
   r * 0.0193339 + g * 0.1191920 + b * 0.9503041)

/-- Source `xyzToOklab`. -/
def xyzToOklab (M : JsMath) (x y z : ℚ) : Lab :=
  let l := 0.4122214708 * x + 0.5363325363 * y + 0.0514459929 * z
  let m := 0.2119034982 * x + 0.6806995451 * y + 0.1073969566 * z
  let s := 0.0883024619 * x + 0.2817188376 * y + 0.6299787005 * z
  let l_ := M.cbrt l
  let m_ := M.cbrt m
  let s_ := M.cbrt s
  ⟨0.2104542553 * l_ + 0.7936177850 * m_ - 0.0040720468 * s_,
   1.9779984951 * l_ - 2.4285922050 * m_ + 0.4505937099 * s_,
   0.0259040371 * l_ + 0.7827717662 * m_ - 0.8086757660 * s_⟩

/-- Source `oklabToOklch` (hue normalized into `[0,360)` by adding 360
when negative). -/
def oklabToOklch (M : JsMath) (L a b : ℚ) : Oklch :=
  let C := M.sqrt (a * a + b * b)
  let h := M.atan2 b a * (180 / M.pi)
  ⟨L, C, if h < 0 then h + 360 else h, none⟩

/-- Source `rgbToOklch` (alpha copied through unchanged). -/
def rgbToOklch (M : JsMath) (v : RGB) : Oklch :=
  let lr := srgbToLinearRgb M v.r
  let lg := srgbToLinearRgb M v.g
  let lb := srgbToLinearRgb M v.b
  let xyz := linearRgbToXyz lr lg lb
  let lab := xyzToOklab M xyz.1 xyz.2.1 xyz.2.2
  let o := oklabToOklch M lab.L lab.a lab.b
  ⟨o.L, o.C, o.h, v.a⟩

/-! ## The formatters -/

/-- `(L*100).toFixed(2).replace(/\.00$/, '')`. -/
def fmtOklchL (L : ℚ) : String := stripDot00 (jsToFixed 2 (L * 100))

/-- `C.toFixed(4).replace(/(\.\d*?)0+$/, '$1').replace(/\.$/, '')`. -/
def fmtOklchC (C : ℚ) : String := stripTrailDot (stripTrailZeros (jsToFixed 4 C))

/-- `h.toFixed(2).replace(/\.00$/, '')`. -/
def fmtOklchH (h : ℚ) : String := stripDot00 (jsToFixed 2 h)

/-- `a.toFixed(2).replace(/0+$/, '').replace(/\.$/, '').replace(/^0\./, '.')`. -/
def fmtOklchA (a : ℚ) : String := collapseZeroDot (stripTrailDot (stripTrailZeros (jsToFixed 2 a)))

/-- The `alphaPart` of `formatOklch`: present exactly when alpha is
present and strictly below 1. -/
def oklchAlphaPart (a : Option ℚ) : String :=
  match a with
  | some x => if x < 1 then (" / ") ++ fmtOklchA x else ("")
  | none => ("")

/-- Source `formatOklch`. -/
def formatOklch (o : Oklch) (useCss : Bool) : String :=
  let l := fmtOklchL o.L
  let c := fmtOklchC o.C
  let h := fmtOklchH o.h
  let alphaPart := oklchAlphaPart o.a
  if useCss then ("oklch(") ++ l ++ ("% ") ++ c ++ (" ") ++ h ++ alphaPart ++ (")")
  else l ++ (" ") ++ c ++ (" ") ++ h ++ alphaPart

/-! ## The orchestration (`convertCssColors`) -/

/-- The `case 'hex'` branch. -/
def hexBranch (v : RGB) (useCss : Bool) : String :=
  (if useCss then ("#") else ("")) ++ rgbToHex v

/-- The `case 'rgb'` branch. -/
def rgbBranch (v : RGB) (useCss : Bool) : String :=
  let r := jsIntStr (jsRound v.r)
  let g := jsIntStr (jsRound v.g)
  let b := jsIntStr (jsRound v.b)
  let noAlpha :=
    if useCss then ("rgb(") ++ r ++ (", ") ++ g ++ (", ") ++ b ++ (")")
    else r ++ (" ") ++ g ++ (" ") ++ b
  match v.a with
  | some x =>
    if x < 1 then
      let a := alphaNumStr x
      if useCss then ("rgba(") ++ r ++ (", ") ++ g ++ (", ") ++ b ++ (", ") ++ a ++ (")")
      else r ++ (" ") ++ g ++ (" ") ++ b ++ (" / ") ++ a
    else noAlpha
  | none => noAlpha

/-- The `case 'hsl'` branch. -/
def hslBranch (v : RGB) (useCss : Bool) : String :=
  let hsl := rgbToHsl v
  let h := jsToFixed 0 hsl.h
  let s := stripDotZero (jsToFixed 1 hsl.s)
  let l := stripDotZero (jsToFixed 1 hsl.l)
  let noAlpha :=
    if useCss then ("hsl(") ++ h ++ (", ") ++ s ++ ("%, ") ++ l ++ ("%)")
    else h ++ (" ") ++ s ++ (" ") ++ l
  match hsl.a with
  | some x =>
    if x < 1 then
      let a := alphaNumStr x
      if useCss then ("hsla(") ++ h ++ (", ") ++ s ++ ("%, ") ++ l ++ ("%, ") ++ a ++ (")")
      else h ++ (" ") ++ s ++ (" ") ++ l ++ (" / ") ++ a
    else noAlpha
  | none => noAlpha

/-- The `case 'oklch'` branch. -/
def oklchBranch (M : JsMath) (v : RGB) (useCss : Bool) : String :=
  formatOklch (rgbToOklch M v) useCss

/-- `String.prototype.toLowerCase`, ASCII range (no claim involves
non-ASCII letters). -/
def jsToLowerCh (c : Char) : Char :=
  if 65 ≤ c.toNat ∧ c.toNat ≤ 90 then Char.ofNat (c.toNat + 32) else c

/-- `s.toLowerCase()`. -/
def jsToLower (s : String) : String := String.mk (s.data.map jsToLowerCh)

/-- `s.trim()`. -/
def jsTrim (s : String) : String :=
  String.mk (((s.data.dropWhile isSpaceCh).reverse.dropWhile isSpaceCh).reverse)

/-- `match.toLowerCase().trim()` (the `cleanedMatch` of the callback). -/
def cleanedTok (t : String) : String := jsTrim (jsToLower t)

/-- The prefix-sniffing dispatch to the four parse functions;
`none` models the callback's `rgb` staying `null`. -/
def parseColor (M : JsMath) (s : String) : Option RGB :=
  if (['#'] : List Char).isPrefixOf s.data then hexToRgb s
  else if (['r', 'g', 'b'] : List Char).isPrefixOf s.data then rgbStringToRgb s
  else if (['h', 's', 'l'] : List Char).isPrefixOf s.data then hslStringToRgb s
  else if (['o', 'k', 'l', 'c', 'h'] : List Char).isPrefixOf s.data then oklchStringToRgb M s
  else none

/-- The clamping step of the callback: red, green and blue into
`[0,255]`, alpha carried over untouched. -/
def clampRgb (v : RGB) : RGB :=
  ⟨max 0 (min 255 v.r), max 0 (min 255 v.g), max 0 (min 255 v.b), v.a⟩

/-- The sample handed to the selected formatter: parse the cleaned
token, then clamp. -/
def parseClamped (M : JsMath) (t : String) : Option RGB :=
  (parseColor M (cleanedTok t)).map clampRgb

/-- The per-token replacement callback of `convertCssColors`: on parse
failure the original match, otherwise the `switch` on the format with
its `default:` passthrough. -/
def convertToken (M : JsMath) (o : ConvertOptions) (t : String) : String :=
  match parseClamped M t with
  | none => t
  | some v =>
    if o.format = ("oklch") then oklchBranch M v o.useCss
    else if o.format = ("hex") then hexBranch v o.useCss
    else if o.format = ("rgb") then rgbBranch v o.useCss
    else if o.format = ("hsl") then hslBranch v o.useCss
    else t

/-! ## The tokenizer (`COLOR_REGEX`)

`/(hsl(a?)\([^\)]+\))|(rgb(a?)\([^\)]+\))|(#[a-fA-F0-9]{3,8})|(oklch\([^\)]+\))/g`
(no `i` flag: the keywords themselves are matched case-sensitively).
`matchTokenAt` tries the four alternatives in source order at one start
position and returns the matched text and the remainder; `scan` walks the
text left to right, exactly as a global `replace` does. -/

/-- `\([^\)]+\)` after a keyword: the span up to the first closing
parenthesis, which must exist and be non-empty. -/
def funcTokTail (rest : List Char) : Option (List Char × List Char) :=
  match rest with
  | c :: r1 =>
    if c = '(' then
      let inner := r1.takeWhile notRParen
      let r2 := r1.dropWhile notRParen
      if inner = [] then none
      else
        match r2 with
        | c2 :: r3 => if c2 = ')' then some ('(' :: (inner ++ [')']), r3) else none
        | [] => none
    else none
  | [] => none

/-- One functional alternative `kw(a?)\([^\)]+\)` of `COLOR_REGEX`. -/
def matchFuncTok (kw : List Char) (allowA : Bool) (cs : List Char) : Option (List Char × List Char) :=
  if kw.isPrefixOf cs then
    match cs.drop kw.length with
    | c :: r =>
      if allowA ∧ c = 'a' then (funcTokTail r).map (fun p => (kw ++ 'a' :: p.1, p.2))
      else (funcTokTail (c :: r)).map (fun p => (kw ++ p.1, p.2))
    | [] => none
  else none

/-- Greedy `{3,8}`: up to `n` leading hexadecimal digit characters. -/
def takeHexUpTo : Nat → List Char → List Char × List Char
  | _, [] => ([], [])
  | 0, cs => ([], cs)
  | n + 1, c :: cs =>
    if isHexDigitCh c then
      let p := takeHexUpTo n cs
      (c :: p.1, p.2)
    else ([], c :: cs)

/-- The alternative `#[a-fA-F0-9]{3,8}` of `COLOR_REGEX`. -/
def matchHexTok (cs : List Char) : Option (List Char × List Char) :=
  match cs with
  | c :: rest =>
    if c = '#' then
      let p := takeHexUpTo 8 rest
      if 3 ≤ p.1.length then some ('#' :: p.1, p.2) else none
    else none
  | [] => none

/-- The four alternatives of `COLOR_REGEX` at one start position, in
source order. -/
def matchTokenAt (cs : List Char) : Option (List Char × List Char) :=
  match matchFuncTok ['h', 's', 'l'] true cs with
  | some p => some p
  | none =>
    match matchFuncTok ['r', 'g', 'b'] true cs with
    | some p => some p
    | none =>
      match matchHexTok cs with
      | some p => some p
      | none => matchFuncTok ['o', 'k', 'l', 'c', 'h'] false cs

/-- One piece of the scanned text: a character outside every match, or
one matched token. -/
inductive Piece where
  | lit (c : Char)
  | tok (t : String)
deriving DecidableEq, Repr

/-- The original text of a piece. -/
def pieceChars : Piece → List Char
  | .lit c => [c]
  | .tok t => t.data

/-- The global scan of `COLOR_REGEX` over the text, with explicit fuel
(each step consumes at least one character, so any fuel at or above the
length is enough; `scan` instantiates the fuel with the length). -/
def scanF : Nat → List Char → List Piece
  | _, [] => []
  | 0, _ :: _ => []
  | fuel + 1, c :: cs' =>
    match matchTokenAt (c :: cs') with
    | some p => .tok (String.mk p.1) :: scanF fuel p.2
    | none => .lit c :: scanF fuel cs'

/-- The global scan of `COLOR_REGEX` over the text: ordered,
non-overlapping, resuming right after each match. -/
def scan (cs : List Char) : List Piece := scanF cs.length cs

/-- Source `convertCssColors`: empty input short-circuits, otherwise
every matched token is replaced by the callback's output and every
character outside the matches is kept. -/
def convertCssColors (M : JsMath) (css : String) (o : ConvertOptions) : String :=
  if css = ("") then ("")
  else
    String.mk (((scan css.data).map (fun p =>
      match p with
      | .lit c => [c]
      | .tok t => (convertToken M o t).data)).flatten)

/-! ## Claim C8 -/

/-- From the spec's words (§4.4, hsl): "hue rounded to 0 decimals"
(rendered as the signed integer of the rounded magnitude, the shared
`toFixed` rounding primitive). -/
def specHue (q : ℚ) : String :=
  (if q < 0 then ("-") else ("")) ++ jsNatRepr (fixedDigits 0 q)

/-- From the spec's words (§4.4, hsl): "saturation and lightness rounded
to 1 decimal with a trailing `.0` stripped": one decimal digit kept only
when it is non-zero. -/
def specPct (q : ℚ) : String :=
  let k := fixedDigits 1 q
  let sgn : String := if q < 0 then ("-") else ("")
  if k % 10 = 0 then sgn ++ jsNatRepr (k / 10)
  else sgn ++ jsNatRepr (k / 10) ++ (".") ++ String.mk [digitCh (k % 10)]

/-- From the spec's words (§4.4, hsl): the whole hsl formatter — "alpha
rule identical to rgb" (present and strictly below 1, rendered as
`parseFloat(toFixed(2))`, the shared `alphaNumStr`); "syntax-style true →
`hsla(h, s%, l%, a)` / `hsl(h, s%, l%)`; false → `h s l` / `h s l / a`". -/
def specHslFormat (v : RGB) (useCss : Bool) : String :=
  let hsl := rgbToHsl v
  let noAlpha :=
    if useCss then ("hsl(") ++ specHue hsl.h ++ (", ") ++ specPct hsl.s ++ ("%, ") ++
      specPct hsl.l ++ ("%)")
    else specHue hsl.h ++ (" ") ++ specPct hsl.s ++ (" ") ++ specPct hsl.l
  match hsl.a with
  | some x =>
    if x < 1 then
      if useCss then ("hsla(") ++ specHue hsl.h ++ (", ") ++ specPct hsl.s ++ ("%, ") ++
        specPct hsl.l ++ ("%, ") ++ alphaNumStr x ++ (")")
      else specHue hsl.h ++ (" ") ++ specPct hsl.s ++ (" ") ++ specPct hsl.l ++ (" / ") ++
        alphaNumStr x
    else noAlpha
  | none => noAlpha

/-! ## Theorems -/

theorem qAbs_eq (q : ℚ) : qAbs q = |q| := by
  unfold qAbs
  split
  · rename_i h
    rw [abs_of_neg h]
  · rename_i h
    rw [abs_of_nonneg (by linarith)]

theorem ratFloor_eq (q : ℚ) : q.floor = ⌊q⌋ := (Rat.floor_def' q).trans Rat.floor_def.symm

theorem jsRound_eq (q : ℚ) : jsRound q = ⌊q + 1 / 2⌋ := ratFloor_eq _

theorem funcTokTail_spec (rest t r : List Char) (h : funcTokTail rest = some (t, r)) :
    t ++ r = rest ∧ t ≠ [] := by
  unfold funcTokTail at h
  match rest, h with
  | c :: r1, h =>
    by_cases hc : c = '('
    · simp only [hc, if_true] at h
      by_cases hi : r1.takeWhile notRParen = []
      · simp [hi] at h
      · simp only [hi, if_false] at h
        cases h2 : r1.dropWhile notRParen with
        | nil => rw [h2] at h; exact absurd h (by simp)
        | cons c2 r3 =>
          rw [h2] at h
          by_cases hc2 : c2 = ')'
          · simp only [hc2, if_true, Option.some.injEq, Prod.mk.injEq] at h
            obtain ⟨ht, hr⟩ := h
            subst ht hr
            refine ⟨?_, by simp⟩
            have hjoin := List.takeWhile_append_dropWhile (p := notRParen) (l := r1)
            rw [h2, hc2] at hjoin
            simp only [hc, List.cons_append, List.append_assoc, List.singleton_append,
              List.nil_append]
            rw [hjoin]
          · simp [hc2] at h
    · simp [hc] at h

theorem matchFuncTok_spec (kw : List Char) (aA : Bool) (cs t r : List Char)
    (h : matchFuncTok kw aA cs = some (t, r)) : t ++ r = cs ∧ t ≠ [] ∧ kw.isPrefixOf t := by
  unfold matchFuncTok at h
  by_cases hp : kw.isPrefixOf cs
  · rw [if_pos hp] at h
    have hcs : kw ++ cs.drop kw.length = cs := by
      have : kw <+: cs := List.isPrefixOf_iff_prefix.mp hp
      obtain ⟨u, hu⟩ := this
      rw [← hu, List.drop_left]
    split at h
    · rename_i c rr hrest
      by_cases ha : (aA = true ∧ c = 'a')
      · rw [if_pos ha] at h
        rcases Option.map_eq_some'.mp h with ⟨p, hft, hpe⟩
        obtain ⟨hp1, hp2⟩ := funcTokTail_spec rr p.1 p.2 (by rw [← hft])
        cases hpe
        refine ⟨?_, by simp, List.isPrefixOf_iff_prefix.mpr ⟨'a' :: p.1, rfl⟩⟩
        rw [List.append_assoc, ← hcs, hrest, ha.2]
        simp [hp1]
      · rw [if_neg ha] at h
        rcases Option.map_eq_some'.mp h with ⟨p, hft, hpe⟩
        obtain ⟨hp1, hp2⟩ := funcTokTail_spec (c :: rr) p.1 p.2 (by rw [← hft])
        cases hpe
        refine ⟨?_, ?_, List.isPrefixOf_iff_prefix.mpr ⟨p.1, rfl⟩⟩
        · rw [List.append_assoc, hp1, ← hrest, hcs]
        · intro hemp
          exact hp2 (List.append_eq_nil.mp hemp).2
    · exact absurd h (by simp)
  · simp [hp] at h

theorem takeHexUpTo_spec (n : Nat) (cs : List Char) :
    (takeHexUpTo n cs).1 ++ (takeHexUpTo n cs).2 = cs := by
  induction n generalizing cs with
  | zero => cases cs <;> simp [takeHexUpTo]
  | succ n ih =>
    cases cs with
    | nil => simp [takeHexUpTo]
    | cons c t =>
      unfold takeHexUpTo
      by_cases hc : isHexDigitCh c
      · simp [hc, ih]
      · simp [hc]

theorem matchHexTok_spec (cs t r : List Char) (h : matchHexTok cs = some (t, r)) :
    t ++ r = cs ∧ t ≠ [] := by
  unfold matchHexTok at h
  match cs, h with
  | c :: rest, h =>
    by_cases hc : c = '#'
    · simp only [hc, if_true] at h
      by_cases hl : 3 ≤ (takeHexUpTo 8 rest).1.length
      · simp only [hl, if_true, Option.some.injEq, Prod.mk.injEq] at h
        obtain ⟨ht, hr⟩ := h
        subst ht hr
        simp [takeHexUpTo_spec 8 rest, hc]
      · simp [hl] at h
    · simp [hc] at h

theorem matchTokenAt_spec (cs t r : List Char) (h : matchTokenAt cs = some (t, r)) :
    t ++ r = cs ∧ t ≠ [] := by
  unfold matchTokenAt at h
  cases h1 : matchFuncTok ['h', 's', 'l'] true cs with
  | some p =>
    rw [h1] at h
    simp only [Option.some.injEq] at h
    obtain ⟨h', h'', _⟩ := matchFuncTok_spec _ _ _ p.1 p.2 (by rw [h1])
    cases h; exact ⟨h', h''⟩
  | none =>
    rw [h1] at h
    cases h2 : matchFuncTok ['r', 'g', 'b'] true cs with
    | some p =>
      rw [h2] at h
      simp only [Option.some.injEq] at h
      obtain ⟨h', h'', _⟩ := matchFuncTok_spec _ _ _ p.1 p.2 (by rw [h2])
      cases h; exact ⟨h', h''⟩
    | none =>
      rw [h2] at h
      cases h3 : matchHexTok cs with
      | some p =>
        rw [h3] at h
        simp only [Option.some.injEq] at h
        obtain ⟨h', h''⟩ := matchHexTok_spec _ p.1 p.2 (by rw [h3])
        cases h; exact ⟨h', h''⟩
      | none =>
        rw [h3] at h
        obtain ⟨h', h'', _⟩ := matchFuncTok_spec _ _ _ t r h
        exact ⟨h', h''⟩

theorem matchTokenAt_rest_lt (cs t r : List Char) (h : matchTokenAt cs = some (t, r)) :
    r.length < cs.length := by
  obtain ⟨h1, h2⟩ := matchTokenAt_spec cs t r h
  have : t.length + r.length = cs.length := by
    rw [← h1, List.length_append]
  cases t with
  | nil => exact absurd rfl h2
  | cons a b => simp only [List.length_cons] at this; omega

theorem scanF_irrel (f1 : Nat) : ∀ (f2 : Nat) (cs : List Char),
    cs.length ≤ f1 → cs.length ≤ f2 → scanF f1 cs = scanF f2 cs := by
  induction f1 with
  | zero =>
    intro f2 cs h1 _
    have : cs = [] := List.length_eq_zero.mp (by omega)
    subst this
    cases f2 <;> rfl
  | succ f1 ih =>
    intro f2 cs h1 h2
    cases cs with
    | nil => cases f2 <;> rfl
    | cons c cs' =>
      cases f2 with
      | zero => simp at h2
      | succ f2 =>
        show scanF (f1 + 1) (c :: cs') = scanF (f2 + 1) (c :: cs')
        unfold scanF
        cases hm : matchTokenAt (c :: cs') with
        | some p =>
          have hlt := matchTokenAt_rest_lt (c :: cs') p.1 p.2 hm
          simp only [List.length_cons] at h1 h2 hlt
          show Piece.tok (String.mk p.1) :: scanF f1 p.2 = Piece.tok (String.mk p.1) :: scanF f2 p.2
          rw [ih f2 p.2 (by omega) (by omega)]
        | none =>
          simp only [List.length_cons] at h1 h2
          show Piece.lit c :: scanF f1 cs' = Piece.lit c :: scanF f2 cs'
          rw [ih f2 cs' (by omega) (by omega)]

/-! ## Structural lemmas about the scan -/

theorem scan_nil : scan [] = [] := rfl

theorem scan_cons_some (c : Char) (cs' : List Char) (p : List Char × List Char)
    (h : matchTokenAt (c :: cs') = some p) :
    scan (c :: cs') = .tok (String.mk p.1) :: scan p.2 := by
  show scanF (cs'.length + 1) (c :: cs') = _
  unfold scanF
  rw [h]
  have hlt := matchTokenAt_rest_lt (c :: cs') p.1 p.2 h
  simp only [List.length_cons] at hlt
  show Piece.tok (String.mk p.1) :: scanF cs'.length p.2 = _
  rw [scanF_irrel cs'.length p.2.length p.2 (by omega) le_rfl]
  rfl

theorem scan_cons_none (c : Char) (cs' : List Char)
    (h : matchTokenAt (c :: cs') = none) :
    scan (c :: cs') = .lit c :: scan cs' := by
  show scanF (cs'.length + 1) (c :: cs') = _
  unfold scanF
  rw [h]
  rfl

theorem scan_join_aux (n : Nat) : ∀ cs : List Char, cs.length ≤ n →
    ((scan cs).map pieceChars).flatten = cs := by
  induction n with
  | zero =>
    intro cs h
    have : cs = [] := List.length_eq_zero.mp (by omega)
    subst this
    rw [scan_nil]
    rfl
  | succ n ih =>
    intro cs hlen
    cases cs with
    | nil => rw [scan_nil]; rfl
    | cons c cs' =>
      cases hm : matchTokenAt (c :: cs') with
      | some p =>
        rw [scan_cons_some c cs' p hm]
        simp only [List.map_cons, List.flatten_cons, pieceChars]
        have hj := (matchTokenAt_spec (c :: cs') p.1 p.2 hm).1
        have hlt := matchTokenAt_rest_lt (c :: cs') p.1 p.2 hm
        rw [ih p.2 (by simp at hlen hlt ⊢; omega)]
        exact hj
      | none =>
        rw [scan_cons_none c cs' hm]
        simp only [List.map_cons, List.flatten_cons, pieceChars, List.singleton_append]
        rw [ih cs' (by simp at hlen; omega)]

/-- The pieces of the scan, concatenated, give back the text. -/
theorem scan_join (cs : List Char) : ((scan cs).map pieceChars).flatten = cs :=
  scan_join_aux cs.length cs le_rfl

/-- `convertCssColors` is exactly the piecewise map over the scan (the
empty-input short-circuit included). -/
theorem convertCssColors_eq (M : JsMath) (css : String) (o : ConvertOptions) :
    convertCssColors M css o =
      String.mk (((scan css.data).map (fun p =>
        match p with
        | .lit c => [c]
        | .tok t => (convertToken M o t).data)).flatten) := by
  unfold convertCssColors
  by_cases h : css = ("")
  · subst h
    rw [if_pos rfl]
    show ("") = String.mk ((List.map _ (scan [])).flatten)
    rw [scan_nil]
    rfl
  · rw [if_neg h]

/-- A token whose parse fails is returned verbatim by the callback. -/
theorem convertToken_of_fail (M : JsMath) (o : ConvertOptions) (t : String)
    (h : parseClamped M t = none) : convertToken M o t = t := by
  unfold convertToken
  rw [h]

/-- A format outside the four known strings falls into the `default:`
branch for every token. -/
theorem convertToken_unknown (M : JsMath) (o : ConvertOptions) (t : String)
    (h1 : o.format ≠ ("oklch")) (h2 : o.format ≠ ("hex"))
    (h3 : o.format ≠ ("rgb")) (h4 : o.format ≠ ("hsl")) :
    convertToken M o t = t := by
  unfold convertToken
  cases hp : parseClamped M t with
  | none => rfl
  | some v => simp [h1, h2, h3, h4]

/-! ## Claim C1 -/

/-- C1: `convertCssColors` never lets an exception escape (it is a total
function of its inputs, for every choice of the transcendental-function
record), every matched token whose per-form parse fails is reproduced
verbatim, and the text outside the matched token spans is preserved
unchanged: the output is exactly the input's scan with each token piece
replaced by the callback's output, each non-token character kept, and the
concatenation of the untouched pieces is the input itself. -/
theorem c1_fail_safe (M : JsMath) (o : ConvertOptions) (css : String) :
    String.mk ((scan css.data).map pieceChars).flatten = css ∧
    convertCssColors M css o =
      String.mk (((scan css.data).map (fun p =>
        match p with
        | .lit c => [c]
        | .tok t => (convertToken M o t).data)).flatten) ∧
    (∀ t : String, parseClamped M t = none → convertToken M o t = t) := by
  refine ⟨?_, convertCssColors_eq M css o, fun t ht => convertToken_of_fail M o t ht⟩
  rw [scan_join]

/-- Witness for C1 at a concrete input: the token `rgb(1, 2, 3, 50%)`
(a `%`-suffixed rgb alpha) fails its parse and is returned verbatim. -/
theorem c1_fail_safe_witness :
    convertToken jsMath0 ⟨("rgb"), true⟩ ("rgb(1, 2, 3, 50%)") = ("rgb(1, 2, 3, 50%)") :=
  (c1_fail_safe jsMath0 ⟨("rgb"), true⟩ ("rgb(1, 2, 3, 50%)")).2.2
    ("rgb(1, 2, 3, 50%)") (by decide)

/-! ## Claim C9 -/

/-- C9: a configured output format outside the closed set
oklch/hex/rgb/hsl makes `convertCssColors` return every input unchanged
(each matched token falls into the `default:` passthrough), and the
function never throws (it is total). -/
theorem c9_unknown_format (M : JsMath) (o : ConvertOptions) (css : String)
    (h1 : o.format ≠ ("oklch")) (h2 : o.format ≠ ("hex"))
    (h3 : o.format ≠ ("rgb")) (h4 : o.format ≠ ("hsl")) :
    convertCssColors M css o = css := by
  rw [convertCssColors_eq]
  have hcongr : ∀ p ∈ scan css.data,
      (match p with
        | Piece.lit c => [c]
        | Piece.tok t => (convertToken M o t).data) = pieceChars p := by
    intro p _
    cases p with
    | lit c => rfl
    | tok t =>
      simp only [pieceChars]
      rw [convertToken_unknown M o t h1 h2 h3 h4]
  rw [List.map_congr_left hcongr, scan_join]

/-- Witness for C9: the unknown format string `lab` leaves a text with
two well-formed tokens untouched. -/
theorem c9_unknown_format_witness :
    convertCssColors jsMath0 (".a rgb(1, 2, 3) #abc ") ⟨("lab"), true⟩ =
      (".a rgb(1, 2, 3) #abc ") :=
  c9_unknown_format jsMath0 ⟨("lab"), true⟩ (".a rgb(1, 2, 3) #abc ")
    (by decide) (by decide) (by decide) (by decide)

/-! ## Claim C2 -/

/-- C2 counterexample: the claim says `rgb(300, -20, 128)` is clamped to
`rgb(255, 0, 128)`; in fact the channel pattern `(\d+)` rejects the
negative channel, the parse returns null, and the token is passed
through unchanged. -/
theorem c2_counterexample :
    convertCssColors jsMath0 ("rgb(300, -20, 128)") ⟨("rgb"), true⟩ = ("rgb(300, -20, 128)") ∧
    ("rgb(300, -20, 128)") ≠ ("rgb(255, 0, 128)") :=
  ⟨by decide, by decide⟩

/-- C2 amended: clamping into `[0,255]` happens before any downstream
conversion for every token the rgb pattern accepts, e.g. `rgb(300, 20,
128)` becomes `rgb(255, 20, 128)`; but a negative channel such as in
`rgb(300, -20, 128)` fails the parse, so that token is returned
unchanged rather than clamped. -/
theorem c2_amended (M : JsMath) :
    convertCssColors M ("rgb(300, 20, 128)") ⟨("rgb"), true⟩ = ("rgb(255, 20, 128)") ∧
    convertCssColors M ("rgb(300, -20, 128)") ⟨("rgb"), true⟩ = ("rgb(300, -20, 128)") := by
  constructor
  · with_unfolding_all rfl
  · with_unfolding_all rfl

/-! ## Claim C5 -/

/-- C5 counterexample: the claim says the keywords are matched
case-insensitively, e.g. that `RGB(103, 80, 164)` is matched; but
`COLOR_REGEX` carries no `i` flag, the scan of that text yields no token
piece at all, and the hex conversion of it (which would produce
`#6750a4` had the token been matched) leaves the text unchanged. -/
theorem c5_counterexample :
    (scan ("RGB(103, 80, 164)").data).all
      (fun p => match p with | .lit _ => true | .tok _ => false) = true ∧
    convertCssColors jsMath0 ("RGB(103, 80, 164)") ⟨("hex"), true⟩ = ("RGB(103, 80, 164)") :=
  ⟨by decide, by decide⟩

/-- C5 amended: the scanning pattern matches the keywords
case-sensitively (lowercase only): `rgb(103, 80, 164)` is matched and
converted while `RGB(103, 80, 164)` is left untouched for every format;
only the hex digit characters are matched case-insensitively, and a
matched token is returned verbatim in its original casing (the scan of
`#6750A4` is the single token `#6750A4`, uppercase preserved). -/
theorem c5_amended (M : JsMath) :
    convertCssColors M ("rgb(103, 80, 164)") ⟨("hex"), true⟩ = ("#6750a4") ∧
    convertCssColors M ("RGB(103, 80, 164)") ⟨("hex"), true⟩ = ("RGB(103, 80, 164)") ∧
    scan ("#6750A4").data = [.tok ("#6750A4")] := by
  refine ⟨?_, ?_, by decide⟩
  · with_unfolding_all rfl
  · with_unfolding_all rfl

/-! ## Claim C6 -/

/-- C6 counterexample: the claim says every sample reaching a formatter
has alpha in `[0,1]`; but alpha is never clamped: the token
`rgb(1, 2, 3, 5)` parses, is clamped only on its color channels, and
reaches the formatter with alpha 5 > 1. -/
theorem c6_counterexample :
    parseClamped jsMath0 ("rgb(1, 2, 3, 5)") = some ⟨1, 2, 3, some 5⟩ ∧
    ¬ ((5 : ℚ) ≤ 1) := by
  constructor
  · with_unfolding_all decide
  · norm_num

theorem parseFloatQ_nonneg (cs : List Char) (x : ℚ) (h : parseFloatQ cs = some x) : 0 ≤ x := by
  unfold parseFloatQ at h
  dsimp only at h
  split at h
  · split at h
    · exact absurd h (by simp)
    · rw [Option.some.injEq] at h
      subst h
      positivity
  · split at h
    · exact absurd h (by simp)
    · rw [Option.some.injEq] at h
      subst h
      positivity

theorem bindFloat_nonneg (al : Option (List Char)) (x : ℚ) (h : al.bind parseFloatQ = some x) :
    0 ≤ x := by
  cases al with
  | none => simp at h
  | some cs => exact parseFloatQ_nonneg cs x (by simpa using h)

theorem hexDigitVal_le15 (c : Char) : hexDigitVal c ≤ 15 := by
  unfold hexDigitVal
  split_ifs <;> omega

theorem parseHexCh_pair (a b : Char) : parseHexCh [a, b] = hexDigitVal a * 16 + hexDigitVal b := by
  show (0 * 16 + hexDigitVal a) * 16 + hexDigitVal b = _
  omega

theorem parseHexCh_pair_lt (a b : Char) : parseHexCh [a, b] < 256 := by
  rw [parseHexCh_pair]
  have ha := hexDigitVal_le15 a
  have hb := hexDigitVal_le15 b
  omega

theorem hexToRgb_alpha_nonneg (s : String) (v : RGB) (h : hexToRgb s = some v) :
    ∀ x : ℚ, v.a = some x → 0 ≤ x := by
  unfold hexToRgb at h
  split at h
  · rw [Option.some.injEq] at h
    subst h
    intro x hx
    simp at hx
  · rw [Option.some.injEq] at h
    subst h
    intro x hx
    simp only [Option.some.injEq] at hx
    subst hx
    positivity
  · exact absurd h (by simp)

theorem hexToRgb_alpha_bounds (u : String) (v : RGB) (h : hexToRgb u = some v) :
    ∀ x : ℚ, v.a = some x → 0 ≤ x ∧ x ≤ 1 := by
  unfold hexToRgb at h
  split at h
  · rw [Option.some.injEq] at h
    subst h
    intro x hx
    simp at hx
  · rename_i a1 a2 a3 a4 a5 a6 a7 a8 heq
    rw [Option.some.injEq] at h
    subst h
    intro x hx
    simp only [Option.some.injEq] at hx
    subst hx
    constructor
    · positivity
    · rw [div_le_one (by norm_num)]
      have hlt := parseHexCh_pair_lt a7 a8
      exact_mod_cast Nat.lt_succ_iff.mp hlt
  · exact absurd h (by simp)

theorem rgbStringToRgb_alpha_nonneg (s : String) (v : RGB) (h : rgbStringToRgb s = some v) :
    ∀ x : ℚ, v.a = some x → 0 ≤ x := by
  unfold rgbStringToRgb at h
  split at h
  · exact absurd h (by simp)
  · rw [Option.some.injEq] at h
    subst h
    intro x hx
    exact bindFloat_nonneg _ x hx

theorem hslStringToRgb_alpha_nonneg (s : String) (v : RGB) (h : hslStringToRgb s = some v) :
    ∀ x : ℚ, v.a = some x → 0 ≤ x := by
  unfold hslStringToRgb at h
  split at h
  · exact absurd h (by simp)
  · split at h
    · rw [Option.some.injEq] at h
      subst h
      intro x hx
      dsimp only at hx
      exact bindFloat_nonneg _ x hx
    · exact absurd h (by simp)

theorem oklchStringToRgb_alpha_nonneg (M : JsMath) (s : String) (v : RGB)
    (h : oklchStringToRgb M s = some v) : ∀ x : ℚ, v.a = some x → 0 ≤ x := by
  unfold oklchStringToRgb at h
  split at h
  · exact absurd h (by simp)
  · split at h
    · rw [Option.some.injEq] at h
      subst h
      intro x hx
      dsimp only at hx
      split at hx
      · simp at hx
      · rename_i al _
        split at hx
        · rcases Option.map_eq_some'.mp hx with ⟨q, hq, hqe⟩
          have := parseFloatQ_nonneg al q hq
          subst hqe
          positivity
        · exact parseFloatQ_nonneg al x hx
    · exact absurd h (by simp)

theorem parseColor_alpha_nonneg (M : JsMath) (s : String) (v : RGB)
    (h : parseColor M s = some v) : ∀ x : ℚ, v.a = some x → 0 ≤ x := by
  unfold parseColor at h
  split_ifs at h
  · exact hexToRgb_alpha_nonneg s v h
  · exact rgbStringToRgb_alpha_nonneg s v h
  · exact hslStringToRgb_alpha_nonneg s v h
  · exact oklchStringToRgb_alpha_nonneg M s v h

/-- C6 amended: for every sample parsed from a hex or rgb token (the
notations whose channel captures are pure digit runs, so the source
never feeds NaN into the clamp there) the red, green and blue values at
the formatter lie in `[0,255]`, and a hex-parsed alpha, if present, lies
in `[0,1]`.  The original claim fails twice elsewhere: alpha is never
clamped, so `rgb(1, 2, 3, 5)` reaches the formatter with alpha 5 (the C6
counterexample), and an all-dot hsl/oklch magnitude capture such as in
`hsl(1, ., .)` makes the source send NaN channels through the clamp to
the formatter, outside `[0,255]` (a path this ℚ-valued embedding cannot
represent, hence the hex/rgb restriction here). -/
theorem c6_amended (M : JsMath) (t : String) (s : RGB)
    (h0 : (['#'] : List Char).isPrefixOf (cleanedTok t).data = true ∨
      (['r', 'g', 'b'] : List Char).isPrefixOf (cleanedTok t).data = true)
    (h : parseClamped M t = some s) :
    (0 ≤ s.r ∧ s.r ≤ 255 ∧ 0 ≤ s.g ∧ s.g ≤ 255 ∧ 0 ≤ s.b ∧ s.b ≤ 255) ∧
    ((['#'] : List Char).isPrefixOf (cleanedTok t).data = true →
      ∀ x : ℚ, s.a = some x → 0 ≤ x ∧ x ≤ 1) := by
  unfold parseClamped at h
  rcases Option.map_eq_some'.mp h with ⟨v, hv, hs⟩
  subst hs
  constructor
  · unfold clampRgb
    exact ⟨le_max_left 0 _, max_le (by norm_num) (min_le_left _ _),
      le_max_left 0 _, max_le (by norm_num) (min_le_left _ _),
      le_max_left 0 _, max_le (by norm_num) (min_le_left _ _)⟩
  · intro hp x hx
    unfold parseColor at hv
    rw [if_pos hp] at hv
    exact hexToRgb_alpha_bounds (cleanedTok t) v hv x hx

/-- Witness for C6 amended: the eight-digit hex token `#11223344` parses
to channels `(17, 34, 51)` with alpha `68/255 = 4/15`; the channel
bounds and the hex alpha bound `[0,1]` hold there. -/
theorem c6_amended_witness :
    parseClamped jsMath0 ("#11223344") = some ⟨17, 34, 51, some (4 / 15)⟩ ∧
    (0 ≤ (17 : ℚ) ∧ (17 : ℚ) ≤ 255) ∧ (0 ≤ (4 / 15 : ℚ) ∧ (4 / 15 : ℚ) ≤ 1) := by
  have h : parseClamped jsMath0 ("#11223344") = some ⟨17, 34, 51, some (4 / 15)⟩ := by
    with_unfolding_all decide
  have hc := c6_amended jsMath0 ("#11223344") ⟨17, 34, 51, some (4 / 15)⟩
    (Or.inl (by decide)) h
  exact ⟨h, ⟨hc.1.1, hc.1.2.1⟩, hc.2 (by decide) (4 / 15) rfl⟩

/-! ## Claim C4 -/

theorem rgbToHsl_a (v : RGB) : (rgbToHsl v).a = v.a := by
  unfold rgbToHsl
  dsimp only
  split <;> rfl

theorem rgbToHsl_reval (v : RGB) (a' : Option ℚ) :
    rgbToHsl ⟨v.r, v.g, v.b, a'⟩ = ⟨(rgbToHsl v).h, (rgbToHsl v).s, (rgbToHsl v).l, a'⟩ := by
  unfold rgbToHsl
  dsimp only
  split <;> rfl

theorem rgbToOklch_a (M : JsMath) (v : RGB) : (rgbToOklch M v).a = v.a := rfl

theorem rgbToOklch_reval (M : JsMath) (v : RGB) (a' : Option ℚ) :
    rgbToOklch M ⟨v.r, v.g, v.b, a'⟩ =
      ⟨(rgbToOklch M v).L, (rgbToOklch M v).C, (rgbToOklch M v).h, a'⟩ := rfl

theorem oklchAlphaPart_none : oklchAlphaPart none = ("") := rfl

theorem oklchAlphaPart_one : oklchAlphaPart (some 1) = ("") := by
  unfold oklchAlphaPart
  dsimp only
  rw [if_neg (lt_irrefl 1)]

theorem formatOklch_congr_alpha (L C h : ℚ) (a1 a2 : Option ℚ) (b : Bool)
    (he : oklchAlphaPart a1 = oklchAlphaPart a2) :
    formatOklch ⟨L, C, h, a1⟩ b = formatOklch ⟨L, C, h, a2⟩ b := by
  unfold formatOklch
  dsimp only
  rw [he]

/-- C4: the alpha presence law, for every recognized token and all four
formatters.  A parsed-and-clamped sample whose alpha is absent or equal
to 1 formats exactly as the same sample with alpha erased (no alpha
suffix or component in any output), and a sample with alpha strictly
below 1 always receives one: the hex pair `alpha*255`, the rgb/hsl
fourth component or ` / a` suffix, and the oklch ` / a` suffix. -/
theorem c4_alpha_presence (M : JsMath) (b : Bool) (t : String) (s : RGB)
    (h : parseClamped M t = some s) :
    ((s.a = none ∨ s.a = some 1) →
      rgbToHex s = rgbToHex ⟨s.r, s.g, s.b, none⟩ ∧
      rgbBranch s b = rgbBranch ⟨s.r, s.g, s.b, none⟩ b ∧
      hslBranch s b = hslBranch ⟨s.r, s.g, s.b, none⟩ b ∧
      formatOklch (rgbToOklch M s) b = formatOklch (rgbToOklch M ⟨s.r, s.g, s.b, none⟩) b) ∧
    (∀ x : ℚ, s.a = some x → x < 1 →
      rgbToHex s = rgbToHex ⟨s.r, s.g, s.b, none⟩ ++ toHexByte (x * 255) ∧
      rgbBranch s false = rgbBranch ⟨s.r, s.g, s.b, none⟩ false ++ (" / ") ++ alphaNumStr x ∧
      rgbBranch s true = ("rgba(") ++ jsIntStr (jsRound s.r) ++ (", ") ++ jsIntStr (jsRound s.g) ++
        (", ") ++ jsIntStr (jsRound s.b) ++ (", ") ++ alphaNumStr x ++ (")") ∧
      hslBranch s false = hslBranch ⟨s.r, s.g, s.b, none⟩ false ++ (" / ") ++ alphaNumStr x ∧
      hslBranch s true = ("hsla(") ++ jsToFixed 0 (rgbToHsl s).h ++ (", ") ++
        stripDotZero (jsToFixed 1 (rgbToHsl s).s) ++ ("%, ") ++
        stripDotZero (jsToFixed 1 (rgbToHsl s).l) ++ ("%, ") ++ alphaNumStr x ++ (")") ∧
      formatOklch (rgbToOklch M s) b =
        (if b then
          ("oklch(") ++ fmtOklchL (rgbToOklch M s).L ++ ("% ") ++ fmtOklchC (rgbToOklch M s).C ++
            (" ") ++ fmtOklchH (rgbToOklch M s).h ++ ((" / ") ++ fmtOklchA x) ++ (")")
        else
          fmtOklchL (rgbToOklch M s).L ++ (" ") ++ fmtOklchC (rgbToOklch M s).C ++ (" ") ++
            fmtOklchH (rgbToOklch M s).h ++ ((" / ") ++ fmtOklchA x))) := by
  have heta : rgbToOklch M s =
      ⟨(rgbToOklch M s).L, (rgbToOklch M s).C, (rgbToOklch M s).h, s.a⟩ := rfl
  constructor
  · intro ha
    have halpha : oklchAlphaPart s.a = ("") := by
      rcases ha with ha | ha
      · rw [ha]
        exact oklchAlphaPart_none
      · rw [ha]
        exact oklchAlphaPart_one
    refine ⟨?_, ?_, ?_, ?_⟩
    · unfold rgbToHex
      rcases ha with ha | ha <;> simp [ha]
    · unfold rgbBranch
      rcases ha with ha | ha <;> simp [ha]
    · unfold hslBranch
      rw [rgbToHsl_reval s none]
      simp only [rgbToHsl_a]
      rcases ha with ha | ha <;> simp [ha]
    · rw [rgbToOklch_reval M s none]
      conv_lhs => rw [heta]
      exact formatOklch_congr_alpha _ _ _ _ _ b
        (halpha.trans oklchAlphaPart_none.symm)
  · intro x hx hlt
    refine ⟨?_, ?_, ?_, ?_, ?_, ?_⟩
    · unfold rgbToHex
      simp [hx, hlt]
    · unfold rgbBranch
      simp [hx, hlt]
    · unfold rgbBranch
      simp [hx, hlt]
    · unfold hslBranch
      rw [rgbToHsl_reval s none]
      simp only [rgbToHsl_a]
      simp [hx, hlt]
    · unfold hslBranch
      simp only [rgbToHsl_a]
      simp [hx, hlt]
    · conv_lhs => rw [heta]
      unfold formatOklch oklchAlphaPart
      dsimp only
      rw [hx]
      dsimp only
      rw [if_pos hlt]

/-- Witness for C4 at a concrete token: `rgb(1, 2, 3, 0.5)` parses with
alpha one half, and the rgb formatter emits the ` / 0.5` suffix the law
requires. -/
theorem c4_alpha_presence_witness :
    rgbBranch ⟨1, 2, 3, some (1 / 2)⟩ false =
      rgbBranch ⟨(1 : ℚ), 2, 3, none⟩ false ++ (" / ") ++ alphaNumStr (1 / 2) := by
  have h : parseClamped jsMath0 ("rgb(1, 2, 3, 0.5)") = some ⟨1, 2, 3, some (1 / 2)⟩ := by
    with_unfolding_all decide
  have hc := (c4_alpha_presence jsMath0 false ("rgb(1, 2, 3, 0.5)") ⟨1, 2, 3, some (1 / 2)⟩ h).2
    (1 / 2) rfl (by norm_num)
  exact hc.2.1

/-! ## Claim C7 -/

theorem rgbBranch_alpha_false (v : RGB) (x : ℚ) (ha : v.a = some x) (hx : x < 1) :
    rgbBranch v false = jsIntStr (jsRound v.r) ++ (" ") ++ jsIntStr (jsRound v.g) ++ (" ") ++
      jsIntStr (jsRound v.b) ++ (" / ") ++ alphaNumStr x := by
  unfold rgbBranch
  simp [ha, hx]

theorem convertCssColors_single_tok (M : JsMath) (o : ConvertOptions) (css : String)
    (h : scan css.data = [.tok css]) : convertCssColors M css o = convertToken M o css := by
  rw [convertCssColors_eq, h]
  simp only [List.map_cons, List.map_nil, List.flatten_cons, List.flatten_nil, List.append_nil]

/-- C7: the oklch alpha rule: a `%`-suffixed alpha is divided by 100
while a bare alpha is taken as-is (the two branches of the parse:
`50%` gives one half where the bare `50` gives fifty, and the bare
fraction `0.5` gives one half), so `oklch(59.69% 0.154 292.34 / 50%)`
parses with alpha one half, and its rgb conversion with the bare syntax
style ends in the alpha component ` / 0.5` for every choice of the
transcendental functions. -/
theorem c7_oklch_percent_alpha (M : JsMath) :
    (∃ v : RGB, oklchStringToRgb M ("oklch(59.69% 0.154 292.34 / 50%)") = some v ∧
      v.a = some (1 / 2)) ∧
    (∃ v : RGB, oklchStringToRgb M ("oklch(59.69% 0.154 292.34 / 50)") = some v ∧
      v.a = some 50) ∧
    (∃ v : RGB, oklchStringToRgb M ("oklch(59.69% 0.154 292.34 / 0.5)") = some v ∧
      v.a = some (1 / 2)) ∧
    (∃ p : String,
      convertCssColors M ("oklch(59.69% 0.154 292.34 / 50%)") ⟨("rgb"), false⟩ =
        p ++ (" / 0.5")) := by
  obtain ⟨v, hv, hva⟩ : ∃ v : RGB,
      oklchStringToRgb M ("oklch(59.69% 0.154 292.34 / 50%)") = some v ∧ v.a = some (1 / 2) :=
    ⟨_, rfl, by with_unfolding_all rfl⟩
  refine ⟨⟨v, hv, hva⟩, ⟨_, rfl, by with_unfolding_all rfl⟩,
    ⟨_, rfl, by with_unfolding_all rfl⟩, ?_⟩
  rw [convertCssColors_single_tok M _ _ (by decide)]
  have hpc : parseClamped M ("oklch(59.69% 0.154 292.34 / 50%)") = some (clampRgb v) := by
    unfold parseClamped
    have hclean : cleanedTok ("oklch(59.69% 0.154 292.34 / 50%)") =
        ("oklch(59.69% 0.154 292.34 / 50%)") := by decide
    rw [hclean]
    unfold parseColor
    rw [if_neg (by decide), if_neg (by decide), if_neg (by decide), if_pos (by decide), hv]
    rfl
  unfold convertToken
  rw [hpc]
  dsimp only
  rw [if_neg (by decide), if_neg (by decide), if_pos (by decide)]
  have hca : (clampRgb v).a = some (1 / 2) := hva
  rw [rgbBranch_alpha_false (clampRgb v) (1 / 2) hca (by norm_num)]
  rw [show alphaNumStr (1 / 2) = ("0.5") from by with_unfolding_all rfl]
  exact ⟨jsIntStr (jsRound (clampRgb v).r) ++ (" ") ++ jsIntStr (jsRound (clampRgb v).g) ++
    (" ") ++ jsIntStr (jsRound (clampRgb v).b), by
      rw [String.append_assoc]
      rfl⟩

theorem natDigits_of_lt10 (m : Nat) (hm : m < 10) : natDigits m = [digitCh m] := by
  unfold natDigits natDigitsAux
  show (natDigitsCore (m + 1) m).reverse = _
  unfold natDigitsCore
  rw [if_pos hm]
  rfl

theorem digitCh_eq_zero (m : Nat) (hm : m < 10) : digitCh m = '0' ↔ m = 0 := by
  interval_cases m <;> simp <;> decide

theorem toFixed0_eq_specHue (q : ℚ) : jsToFixed 0 q = specHue q := by
  unfold jsToFixed specHue
  dsimp only
  rw [if_pos rfl]

theorem stripDotZero_append_digit (X : String) (m : Nat) (hm : m < 10) :
    stripDotZero (X ++ (".") ++ String.mk [digitCh m]) =
      (if m = 0 then X else X ++ (".") ++ String.mk [digitCh m]) := by
  by_cases hm0 : m = 0
  · subst hm0
    rw [if_pos rfl]
    unfold stripDotZero
    have hdata : (X ++ (".") ++ String.mk [digitCh 0]).data.reverse =
        '0' :: '.' :: X.data.reverse := by
      simp [String.data_append]
      rfl
    rw [hdata]
    simp
  · rw [if_neg hm0]
    unfold stripDotZero
    split
    · rename_i t heq
      exfalso
      have hdata : (X ++ (".") ++ String.mk [digitCh m]).data.reverse =
          digitCh m :: '.' :: X.data.reverse := by
        simp [String.data_append]
      rw [hdata] at heq
      have : digitCh m = '0' := by
        injection heq
      exact hm0 ((digitCh_eq_zero m hm).mp this)
    · rfl

theorem stripDotZero_toFixed1 (q : ℚ) : stripDotZero (jsToFixed 1 q) = specPct q := by
  unfold jsToFixed specPct
  dsimp only
  rw [if_neg (one_ne_zero)]
  rw [pow_one]
  rw [natDigits_of_lt10 (fixedDigits 1 q % 10) (Nat.mod_lt _ (by norm_num))]
  have hpad : padZeroList 1 [digitCh (fixedDigits 1 q % 10)] = [digitCh (fixedDigits 1 q % 10)] := by
    simp [padZeroList]
  rw [hpad]
  exact stripDotZero_append_digit _ _ (Nat.mod_lt _ (by norm_num))

/-- C8: the hsl formatter refines the spec's description: for every
sample reaching it and either syntax style, the emitted string is the
spec-side rendering (hue at 0 decimals; saturation and lightness at 1
decimal with a trailing `.0` stripped; `hsla(h, s%, l%, a)` /
`hsl(h, s%, l%)` when the CSS function syntax is requested and
`h s l` / `h s l / a` otherwise). -/
theorem c8_hsl_formatter (v : RGB) (b : Bool) : hslBranch v b = specHslFormat v b := by
  unfold hslBranch specHslFormat
  cases ha : (rgbToHsl v).a with
  | none =>
    simp only [toFixed0_eq_specHue, stripDotZero_toFixed1]
  | some x =>
    by_cases hx : x < 1
    · simp only [hx, if_pos, toFixed0_eq_specHue, stripDotZero_toFixed1]
    · simp only [hx, if_neg, toFixed0_eq_specHue, stripDotZero_toFixed1]

/-! ## Numeral and character lemmas (infrastructure for C3 and C10) -/

theorem charOfNat_toNat (n : Nat) (h : n < 55296) : (Char.ofNat n).toNat = n := by
  unfold Char.ofNat
  rw [dif_pos (Or.inl h)]
  rfl

theorem digitCh_toNat (m : Nat) (hm : m < 10) : (digitCh m).toNat = 48 + m :=
  charOfNat_toNat _ (by omega)

theorem isDigitCh_digitCh (m : Nat) (hm : m < 10) : isDigitCh (digitCh m) = true := by
  simp only [isDigitCh, digitCh_toNat m hm]
  rw [decide_eq_true_eq]
  omega

theorem natDigitsCore_irrel (f1 : Nat) : ∀ (f2 n : Nat), n < f1 → n < f2 →
    natDigitsCore f1 n = natDigitsCore f2 n := by
  induction f1 with
  | zero => intro f2 n h1 _; omega
  | succ f1 ih =>
    intro f2 n h1 h2
    cases f2 with
    | zero => omega
    | succ f2 =>
      show natDigitsCore (f1 + 1) n = natDigitsCore (f2 + 1) n
      unfold natDigitsCore
      by_cases h10 : n < 10
      · rw [if_pos h10, if_pos h10]
      · rw [if_neg h10, if_neg h10]
        rw [ih f2 (n / 10) (by omega) (by omega)]

theorem natDigitsAux_eq (n : Nat) :
    natDigitsAux n = if n < 10 then [digitCh n] else digitCh (n % 10) :: natDigitsAux (n / 10) := by
  show natDigitsCore (n + 1) n = _
  by_cases h10 : n < 10
  · rw [if_pos h10]
    unfold natDigitsCore
    rw [if_pos h10]
  · rw [if_neg h10]
    unfold natDigitsCore
    rw [if_neg h10]
    show _ :: natDigitsCore n (n / 10) = _ :: natDigitsCore (n / 10 + 1) (n / 10)
    rw [natDigitsCore_irrel n (n / 10 + 1) (n / 10) (by omega) (by omega)]

theorem natDigitsAux_ne_nil (n : Nat) : natDigitsAux n ≠ [] := by
  rw [natDigitsAux_eq]
  split <;> simp

theorem natDigitsAux_all_digit (n : Nat) : ∀ c ∈ natDigitsAux n, isDigitCh c = true := by
  induction n using Nat.strong_induction_on with
  | _ n ih =>
    rw [natDigitsAux_eq]
    by_cases h10 : n < 10
    · rw [if_pos h10]
      intro c hc
      rw [List.mem_singleton] at hc
      subst hc
      exact isDigitCh_digitCh n h10
    · rw [if_neg h10]
      intro c hc
      rcases List.mem_cons.mp hc with hc | hc
      · subst hc
        exact isDigitCh_digitCh _ (Nat.mod_lt _ (by omega))
      · exact ih (n / 10) (Nat.div_lt_self (by omega) (by omega)) c hc

theorem natDigits_ne_nil (n : Nat) : natDigits n ≠ [] := by
  unfold natDigits
  simp [natDigitsAux_ne_nil]

theorem natDigits_all_digit (n : Nat) : ∀ c ∈ natDigits n, isDigitCh c = true := by
  intro c hc
  exact natDigitsAux_all_digit n c (List.mem_reverse.mp hc)

theorem parseNat_append_digit (xs : List Char) (c : Char) :
    parseNatCh (xs ++ [c]) = parseNatCh xs * 10 + (c.toNat - 48) := by
  unfold parseNatCh
  rw [List.foldl_append]
  rfl

theorem parseNat_natDigits (n : Nat) : parseNatCh (natDigits n) = n := by
  unfold natDigits
  induction n using Nat.strong_induction_on with
  | _ n ih =>
    rw [natDigitsAux_eq]
    by_cases h10 : n < 10
    · rw [if_pos h10]
      show parseNatCh [digitCh n] = n
      unfold parseNatCh
      rw [List.foldl_cons, List.foldl_nil, digitCh_toNat n h10]
      omega
    · rw [if_neg h10]
      rw [List.reverse_cons, parseNat_append_digit,
        ih (n / 10) (Nat.div_lt_self (by omega) (by omega)),
        digitCh_toNat _ (Nat.mod_lt _ (by omega))]
      omega

theorem natHexCore_irrel (f1 : Nat) : ∀ (f2 n : Nat), n < f1 → n < f2 →
    natHexCore f1 n = natHexCore f2 n := by
  induction f1 with
  | zero => intro f2 n h1 _; omega
  | succ f1 ih =>
    intro f2 n h1 h2
    cases f2 with
    | zero => omega
    | succ f2 =>
      show natHexCore (f1 + 1) n = natHexCore (f2 + 1) n
      unfold natHexCore
      by_cases h16 : n < 16
      · rw [if_pos h16, if_pos h16]
      · rw [if_neg h16, if_neg h16]
        rw [ih f2 (n / 16) (by omega) (by omega)]

theorem natHexAux_eq (n : Nat) :
    natHexAux n = if n < 16 then [hexCh n] else hexCh (n % 16) :: natHexAux (n / 16) := by
  show natHexCore (n + 1) n = _
  by_cases h16 : n < 16
  · rw [if_pos h16]
    unfold natHexCore
    rw [if_pos h16]
  · rw [if_neg h16]
    unfold natHexCore
    rw [if_neg h16]
    show _ :: natHexCore n (n / 16) = _ :: natHexCore (n / 16 + 1) (n / 16)
    rw [natHexCore_irrel n (n / 16 + 1) (n / 16) (by omega) (by omega)]


theorem floor_half_q : ⌊(1 / 2 : ℚ)⌋ = 0 := by
  rw [Int.floor_eq_zero_iff]
  constructor <;> norm_num

theorem jsRound_natCast (n : Nat) : jsRound ((n : ℚ)) = (n : ℤ) := by
  rw [jsRound_eq]
  rw [show ((n : ℚ)) = (((n : ℤ) : ℚ)) by push_cast; ring]
  rw [Int.floor_int_add, floor_half_q, add_zero]

theorem jsIntStr_natCast (n : Nat) : jsIntStr ((n : ℤ)) = jsNatRepr n := by
  unfold jsIntStr
  rw [if_neg (by exact not_lt.mpr (Int.natCast_nonneg n))]
  rw [Int.toNat_natCast]

theorem span_all_append (p : Char → Bool) (xs : List Char) (y : Char) (ys : List Char)
    (hxs : ∀ c ∈ xs, p c = true) (hy : p y = false) :
    (xs ++ y :: ys).takeWhile p = xs ∧ (xs ++ y :: ys).dropWhile p = y :: ys := by
  induction xs with
  | nil => simp [List.takeWhile_cons, List.dropWhile_cons, hy]
  | cons c t ih =>
    have hc : p c = true := hxs c (by simp)
    have iht := ih (fun c2 hc2 => hxs c2 (by simp [hc2]))
    simp [List.takeWhile_cons, List.dropWhile_cons, hc, iht.1, iht.2]

theorem jsToLowerCh_id (c : Char) (h : c.toNat < 65 ∨ 90 < c.toNat) : jsToLowerCh c = c := by
  unfold jsToLowerCh
  rw [if_neg (by omega)]

theorem jsToLower_id (s : String) (h : ∀ c ∈ s.data, c.toNat < 65 ∨ 90 < c.toNat) :
    jsToLower s = s := by
  unfold jsToLower
  rw [List.map_congr_left (fun c hc => jsToLowerCh_id c (h c hc))]
  simp

theorem dropWhile_of_head_neg (p : Char → Bool) (l : List Char)
    (h : ∀ c, l.head? = some c → p c = false) : l.dropWhile p = l := by
  cases l with
  | nil => rfl
  | cons c t => simp [List.dropWhile_cons, h c rfl]

theorem jsTrim_id (s : String) (h1 : ∀ c, s.data.head? = some c → isSpaceCh c = false)
    (h2 : ∀ c, s.data.getLast? = some c → isSpaceCh c = false) : jsTrim s = s := by
  unfold jsTrim
  rw [dropWhile_of_head_neg _ _ h1]
  rw [dropWhile_of_head_neg _ _ (fun c hc => h2 c (by rwa [List.head?_reverse] at hc))]
  rw [List.reverse_reverse]

theorem clampRgb_id (v : RGB) (h1 : 0 ≤ v.r) (h2 : v.r ≤ 255) (h3 : 0 ≤ v.g) (h4 : v.g ≤ 255)
    (h5 : 0 ≤ v.b) (h6 : v.b ≤ 255) : clampRgb v = v := by
  unfold clampRgb
  cases v with
  | mk r g b a =>
    dsimp only at h1 h2 h3 h4 h5 h6 ⊢
    rw [min_eq_right h2, max_eq_right h1, min_eq_right h4, max_eq_right h3,
      min_eq_right h6, max_eq_right h5]

theorem isDigitCh_iff (c : Char) : isDigitCh c = true ↔ 48 ≤ c.toNat ∧ c.toNat ≤ 57 := by
  simp [isDigitCh]

theorem isRgbSepCh_of_digit (c : Char) (h : isDigitCh c = true) : isRgbSepCh c = false := by
  rw [isDigitCh_iff] at h
  simp [isRgbSepCh, isSpaceCh]
  omega

theorem isSpaceCh_of_digit (c : Char) (h : isDigitCh c = true) : isSpaceCh c = false := by
  rw [isDigitCh_iff] at h
  simp [isSpaceCh]
  omega

theorem notRParen_of_digit (c : Char) (h : isDigitCh c = true) : notRParen c = true := by
  rw [isDigitCh_iff] at h
  simp [notRParen]
  omega

theorem isHexDigitCh_iff (c : Char) : isHexDigitCh c = true ↔
    (48 ≤ c.toNat ∧ c.toNat ≤ 57) ∨ (97 ≤ c.toNat ∧ c.toNat ≤ 102) ∨
    (65 ≤ c.toNat ∧ c.toNat ≤ 70) := by
  simp [isHexDigitCh, isDigitCh]

theorem jsToLowerCh_toNat (c : Char) :
    (jsToLowerCh c).toNat = if 65 ≤ c.toNat ∧ c.toNat ≤ 90 then c.toNat + 32 else c.toNat := by
  unfold jsToLowerCh
  split
  · rename_i h
    exact charOfNat_toNat _ (by omega)
  · rfl

theorem hexLower_range (c : Char) (h : isHexDigitCh c = true) :
    (48 ≤ (jsToLowerCh c).toNat ∧ (jsToLowerCh c).toNat ≤ 57) ∨
    (97 ≤ (jsToLowerCh c).toNat ∧ (jsToLowerCh c).toNat ≤ 102) := by
  rw [isHexDigitCh_iff] at h
  rw [jsToLowerCh_toNat]
  split <;> omega

theorem hexCh_of_lower (c : Char)
    (h : (48 ≤ c.toNat ∧ c.toNat ≤ 57) ∨ (97 ≤ c.toNat ∧ c.toNat ≤ 102)) :
    hexCh (hexDigitVal c) = c := by
  rcases h with h | h
  · have hv : hexDigitVal c = c.toNat - 48 := by
      unfold hexDigitVal
      rw [if_pos (by omega)]
    rw [hv]
    unfold hexCh
    rw [if_pos (by omega)]
    unfold digitCh
    rw [show 48 + (c.toNat - 48) = c.toNat by omega]
    exact Char.ofNat_toNat c
  · have hv : hexDigitVal c = c.toNat - 87 := by
      unfold hexDigitVal
      rw [if_neg (by omega), if_pos (by omega)]
    rw [hv]
    unfold hexCh
    rw [if_neg (by omega)]
    rw [show 87 + (c.toNat - 87) = c.toNat by omega]
    exact Char.ofNat_toNat c

theorem hexDigitVal_lower_lt16 (c : Char) : hexDigitVal c < 16 := by
  have := hexDigitVal_le15 c
  omega

theorem toHexByte_nat (n : Nat) (h : n < 256) :
    toHexByte ((n : ℚ)) = String.mk [hexCh (n / 16), hexCh (n % 16)] := by
  unfold toHexByte
  dsimp only
  rw [jsRound_natCast]
  have hsgn : (if ((n : ℤ)) < 0 then ("-") ++ natHexStr ((n : ℤ)).natAbs
      else natHexStr ((n : ℤ)).toNat) = natHexStr n := by
    rw [if_neg (not_lt.mpr (Int.natCast_nonneg n)), Int.toNat_natCast]
  rw [hsgn]
  by_cases h16 : n < 16
  · have hstr : natHexStr n = String.mk [hexCh n] := by
      unfold natHexStr
      rw [natHexAux_eq, if_pos h16]
      rfl
    rw [hstr]
    have hlen : (String.mk [hexCh n]).length < 2 := by
      show 1 < 2
      omega
    rw [if_pos hlen]
    rw [Nat.div_eq_of_lt h16, Nat.mod_eq_of_lt h16]
    rw [show hexCh 0 = '0' from rfl]
    rfl
  · have hstr : natHexStr n = String.mk [hexCh (n / 16), hexCh (n % 16)] := by
      unfold natHexStr
      rw [natHexAux_eq, if_neg h16, natHexAux_eq (n / 16), if_pos (by omega)]
      rfl
    rw [hstr]
    have hlen : ¬ (String.mk [hexCh (n / 16), hexCh (n % 16)]).length < 2 := by
      show ¬ 2 < 2
      omega
    rw [if_neg hlen]


theorem lower_inert_digit (c : Char) (h : isDigitCh c = true) : c.toNat < 65 ∨ 90 < c.toNat := by
  rw [isDigitCh_iff] at h
  omega

theorem isSpaceCh_of_ge48 (c : Char) (h : 48 ≤ c.toNat) : isSpaceCh c = false := by
  simp only [isSpaceCh, decide_eq_false_iff_not]
  omega

theorem isSpaceCh_of_lowerHex (c : Char) (h : isHexDigitCh c = true) :
    isSpaceCh (jsToLowerCh c) = false := by
  have hr := hexLower_range c h
  apply isSpaceCh_of_ge48
  omega

theorem getLast?_cons_of_ne_nil (a : Char) (l : List Char) (h : l ≠ []) :
    (a :: l).getLast? = l.getLast? := by
  rw [show (a :: l) = [a] ++ l from rfl]
  exact List.getLast?_append_of_ne_nil _ h

theorem takeWhile_append_pos (p : Char → Bool) (l1 l2 : List Char)
    (h : ∀ c ∈ l1, p c = true) : (l1 ++ l2).takeWhile p = l1 ++ l2.takeWhile p := by
  induction l1 with
  | nil => rfl
  | cons c t ih =>
    simp [List.takeWhile_cons, h c (by simp), ih (fun x hx => h x (by simp [hx]))]

theorem dropWhile_append_pos (p : Char → Bool) (l1 l2 : List Char)
    (h : ∀ c ∈ l1, p c = true) : (l1 ++ l2).dropWhile p = l2.dropWhile p := by
  induction l1 with
  | nil => rfl
  | cons c t ih =>
    simp [List.dropWhile_cons, h c (by simp), ih (fun x hx => h x (by simp [hx]))]

/-! ## Match lemmas for specific token shapes -/

theorem matchFuncTok_none_head (k : Char) (kt : List Char) (aA : Bool)
    (c : Char) (cs : List Char) (hne : (k == c) = false) :
    matchFuncTok (k :: kt) aA (c :: cs) = none := by
  unfold matchFuncTok
  have hp : (k :: kt).isPrefixOf (c :: cs) = false := by
    show ((k == c) && kt.isPrefixOf cs) = false
    rw [hne, Bool.false_and]
  rw [if_neg (by rw [hp]; exact Bool.false_ne_true)]

theorem takeHexUpTo_nil (n : Nat) : takeHexUpTo n [] = ([], []) := by
  cases n <;> rfl

theorem takeHexUpTo_cons (n : Nat) (c : Char) (cs : List Char) (hc : isHexDigitCh c = true) :
    takeHexUpTo (n + 1) (c :: cs) = (c :: (takeHexUpTo n cs).1, (takeHexUpTo n cs).2) := by
  conv_lhs => unfold takeHexUpTo
  rw [if_pos hc]

theorem takeHexUpTo_all (n : Nat) (cs : List Char) (hlen : cs.length ≤ n)
    (h : ∀ c ∈ cs, isHexDigitCh c = true) : takeHexUpTo n cs = (cs, []) := by
  induction cs generalizing n with
  | nil => exact takeHexUpTo_nil n
  | cons c t ih =>
    cases n with
    | zero => simp at hlen
    | succ m =>
      rw [takeHexUpTo_cons m c t (h c (by simp))]
      rw [ih m (by simp at hlen; omega) (fun x hx => h x (by simp [hx]))]

theorem matchHexTok_all (ds : List Char) (hlen3 : 3 ≤ ds.length) (hlen8 : ds.length ≤ 8)
    (h : ∀ c ∈ ds, isHexDigitCh c = true) :
    matchHexTok ('#' :: ds) = some ('#' :: ds, []) := by
  unfold matchHexTok
  dsimp only
  rw [if_pos rfl]
  rw [takeHexUpTo_all 8 ds hlen8 h]
  rw [if_pos hlen3]

theorem matchTokenAt_hash (ds : List Char) (hlen3 : 3 ≤ ds.length) (hlen8 : ds.length ≤ 8)
    (h : ∀ c ∈ ds, isHexDigitCh c = true) :
    matchTokenAt ('#' :: ds) = some ('#' :: ds, []) := by
  unfold matchTokenAt
  rw [matchFuncTok_none_head 'h' ['s', 'l'] true '#' ds (by decide)]
  rw [matchFuncTok_none_head 'r' ['g', 'b'] true '#' ds (by decide)]
  rw [matchHexTok_all ds hlen3 hlen8 h]

theorem afterKw_lparen (r : List Char) : afterKw ('(' :: r) = some r := by
  unfold afterKw
  dsimp only
  rw [if_neg (by decide), if_pos rfl]

theorem rgbAlphaTail_rparen : rgbAlphaTail [')'] = none := by decide

theorem matchRgbArgs_digits (D1 D2 D3 : List Char)
    (h1 : D1 ≠ []) (hd1 : ∀ c ∈ D1, isDigitCh c = true)
    (h2 : D2 ≠ []) (hd2 : ∀ c ∈ D2, isDigitCh c = true)
    (h3 : D3 ≠ []) (hd3 : ∀ c ∈ D3, isDigitCh c = true) :
    matchRgbArgs (D1 ++ ',' :: ' ' :: (D2 ++ ',' :: ' ' :: (D3 ++ [')']))) =
      some ⟨D1, D2, D3, none⟩ := by
  obtain ⟨d2h, D2t, rfl⟩ := List.exists_cons_of_ne_nil h2
  obtain ⟨d3h, D3t, rfl⟩ := List.exists_cons_of_ne_nil h3
  have hd2h : isDigitCh d2h = true := hd2 d2h (by simp)
  have hd3h : isDigitCh d3h = true := hd3 d3h (by simp)
  have hsep : isRgbSepCh ',' = true := by decide
  have hsp : isRgbSepCh ' ' = true := by decide
  simp only [List.cons_append]
  unfold matchRgbArgs
  dsimp only
  have s1 := span_all_append isDigitCh D1 ','
    (' ' :: d2h :: (D2t ++ ',' :: ' ' :: d3h :: (D3t ++ [')']))) hd1 (by decide)
  rw [s1.1, s1.2, if_neg h1]
  have s2t : ((',' :: ' ' :: d2h :: (D2t ++ ',' :: ' ' :: d3h :: (D3t ++ [')'])))).takeWhile
      isRgbSepCh = [',', ' '] := by
    simp [List.takeWhile_cons, hsep, hsp, isRgbSepCh_of_digit d2h hd2h]
  have s2d : ((',' :: ' ' :: d2h :: (D2t ++ ',' :: ' ' :: d3h :: (D3t ++ [')'])))).dropWhile
      isRgbSepCh = d2h :: (D2t ++ ',' :: ' ' :: d3h :: (D3t ++ [')'])) := by
    simp [List.dropWhile_cons, hsep, hsp, isRgbSepCh_of_digit d2h hd2h]
  rw [s2t, s2d, if_neg (by decide)]
  have s3 := span_all_append isDigitCh (d2h :: D2t) ','
    (' ' :: d3h :: (D3t ++ [')'])) hd2 (by decide)
  rw [List.cons_append] at s3
  rw [s3.1, s3.2, if_neg (by simp)]
  have s4t : ((',' :: ' ' :: d3h :: (D3t ++ [')']))).takeWhile isRgbSepCh = [',', ' '] := by
    simp [List.takeWhile_cons, hsep, hsp, isRgbSepCh_of_digit d3h hd3h]
  have s4d : ((',' :: ' ' :: d3h :: (D3t ++ [')']))).dropWhile isRgbSepCh =
      d3h :: (D3t ++ [')']) := by
    simp [List.dropWhile_cons, hsep, hsp, isRgbSepCh_of_digit d3h hd3h]
  rw [s4t, s4d, if_neg (by decide)]
  have s5 := span_all_append isDigitCh (d3h :: D3t) ')' [] hd3 (by decide)
  rw [List.cons_append] at s5
  rw [s5.1, s5.2, if_neg (by simp)]
  rw [rgbAlphaTail_rparen]
  rfl

theorem rgbStringToRgb_digits (n1 n2 n3 : Nat) :
    rgbStringToRgb (String.mk ('r' :: 'g' :: 'b' :: '(' ::
        (natDigits n1 ++ ',' :: ' ' :: (natDigits n2 ++ ',' :: ' ' :: (natDigits n3 ++ [')']))))) =
      some ⟨(n1 : ℚ), (n2 : ℚ), (n3 : ℚ), none⟩ := by
  have hra : matchRgbAt ('r' :: 'g' :: 'b' :: '(' ::
      (natDigits n1 ++ ',' :: ' ' :: (natDigits n2 ++ ',' :: ' ' :: (natDigits n3 ++ [')'])))) =
      some ⟨natDigits n1, natDigits n2, natDigits n3, none⟩ := by
    unfold matchRgbAt
    dsimp only
    rw [if_pos ⟨rfl, rfl, rfl⟩, afterKw_lparen]
    dsimp only [Option.bind]
    exact matchRgbArgs_digits (natDigits n1) (natDigits n2) (natDigits n3)
      (natDigits_ne_nil n1) (natDigits_all_digit n1)
      (natDigits_ne_nil n2) (natDigits_all_digit n2)
      (natDigits_ne_nil n3) (natDigits_all_digit n3)
  have hfm : firstRgbMatch ('r' :: 'g' :: 'b' :: '(' ::
      (natDigits n1 ++ ',' :: ' ' :: (natDigits n2 ++ ',' :: ' ' :: (natDigits n3 ++ [')'])))) =
      some ⟨natDigits n1, natDigits n2, natDigits n3, none⟩ := by
    unfold firstRgbMatch
    rw [hra]
  unfold rgbStringToRgb
  dsimp only
  rw [hfm]
  dsimp only
  rw [parseNat_natDigits, parseNat_natDigits, parseNat_natDigits]
  rfl

theorem funcTokTail_rgbArgs (D1 D2 D3 : List Char)
    (h1 : D1 ≠ [])
    (hd1 : ∀ c ∈ D1, isDigitCh c = true)
    (hd2 : ∀ c ∈ D2, isDigitCh c = true)
    (hd3 : ∀ c ∈ D3, isDigitCh c = true) :
    funcTokTail ('(' :: (D1 ++ ',' :: ' ' :: (D2 ++ ',' :: ' ' :: (D3 ++ [')'])))) =
      some ('(' :: ((D1 ++ ',' :: ' ' :: (D2 ++ ',' :: ' ' :: D3)) ++ [')']), []) := by
  have hnp1 : ∀ c ∈ D1, notRParen c = true := fun c hc => notRParen_of_digit c (hd1 c hc)
  have hnp2 : ∀ c ∈ D2, notRParen c = true := fun c hc => notRParen_of_digit c (hd2 c hc)
  have hnp3 : ∀ c ∈ D3, notRParen c = true := fun c hc => notRParen_of_digit c (hd3 c hc)
  have hcm : notRParen ',' = true := by decide
  have hspc : notRParen ' ' = true := by decide
  have h3s := span_all_append notRParen D3 ')' [] hnp3 (by decide)
  have h2t : (D2 ++ ',' :: ' ' :: (D3 ++ [')'])).takeWhile notRParen =
      D2 ++ ',' :: ' ' :: D3 := by
    rw [takeWhile_append_pos _ _ _ hnp2]
    simp [List.takeWhile_cons, hcm, hspc, h3s.1]
  have h2d : (D2 ++ ',' :: ' ' :: (D3 ++ [')'])).dropWhile notRParen = [')'] := by
    rw [dropWhile_append_pos _ _ _ hnp2]
    simp [List.dropWhile_cons, hcm, hspc, h3s.2]
  have h1t : (D1 ++ ',' :: ' ' :: (D2 ++ ',' :: ' ' :: (D3 ++ [')']))).takeWhile notRParen =
      D1 ++ ',' :: ' ' :: (D2 ++ ',' :: ' ' :: D3) := by
    rw [takeWhile_append_pos _ _ _ hnp1]
    simp [List.takeWhile_cons, hcm, hspc, h2t]
  have h1d : (D1 ++ ',' :: ' ' :: (D2 ++ ',' :: ' ' :: (D3 ++ [')']))).dropWhile notRParen =
      [')'] := by
    rw [dropWhile_append_pos _ _ _ hnp1]
    simp [List.dropWhile_cons, hcm, hspc, h2d]
  unfold funcTokTail
  dsimp only
  rw [if_pos rfl]
  rw [h1t, h1d]
  rw [if_neg (by simp [h1])]
  rfl

theorem matchFuncTok_rgbTok (D1 D2 D3 : List Char)
    (h1 : D1 ≠ [])
    (hd1 : ∀ c ∈ D1, isDigitCh c = true)
    (hd2 : ∀ c ∈ D2, isDigitCh c = true)
    (hd3 : ∀ c ∈ D3, isDigitCh c = true) :
    matchFuncTok ['r', 'g', 'b'] true
        ('r' :: 'g' :: 'b' :: '(' :: (D1 ++ ',' :: ' ' :: (D2 ++ ',' :: ' ' :: (D3 ++ [')'])))) =
      some ('r' :: 'g' :: 'b' :: '(' ::
        ((D1 ++ ',' :: ' ' :: (D2 ++ ',' :: ' ' :: D3)) ++ [')']), []) := by
  unfold matchFuncTok
  have hpre : (['r', 'g', 'b'] : List Char).isPrefixOf
      ('r' :: 'g' :: 'b' :: '(' :: (D1 ++ ',' :: ' ' :: (D2 ++ ',' :: ' ' :: (D3 ++ [')'])))) =
      true := rfl
  rw [if_pos hpre]
  rw [show ('r' :: 'g' :: 'b' :: '(' ::
      (D1 ++ ',' :: ' ' :: (D2 ++ ',' :: ' ' :: (D3 ++ [')'])))).drop
      (['r', 'g', 'b'] : List Char).length =
      '(' :: (D1 ++ ',' :: ' ' :: (D2 ++ ',' :: ' ' :: (D3 ++ [')']))) from rfl]
  dsimp only
  rw [if_neg (by simp)]
  rw [funcTokTail_rgbArgs D1 D2 D3 h1 hd1 hd2 hd3]
  rfl

theorem matchTokenAt_rgbTok (D1 D2 D3 : List Char)
    (h1 : D1 ≠ [])
    (hd1 : ∀ c ∈ D1, isDigitCh c = true)
    (hd2 : ∀ c ∈ D2, isDigitCh c = true)
    (hd3 : ∀ c ∈ D3, isDigitCh c = true) :
    matchTokenAt
        ('r' :: 'g' :: 'b' :: '(' :: (D1 ++ ',' :: ' ' :: (D2 ++ ',' :: ' ' :: (D3 ++ [')'])))) =
      some ('r' :: 'g' :: 'b' :: '(' ::
        ((D1 ++ ',' :: ' ' :: (D2 ++ ',' :: ' ' :: D3)) ++ [')']), []) := by
  unfold matchTokenAt
  rw [matchFuncTok_none_head 'h' ['s', 'l'] true 'r' _ (by decide)]
  rw [matchFuncTok_rgbTok D1 D2 D3 h1 hd1 hd2 hd3]

theorem scan_rgbTok (D1 D2 D3 : List Char)
    (h1 : D1 ≠ [])
    (hd1 : ∀ c ∈ D1, isDigitCh c = true)
    (hd2 : ∀ c ∈ D2, isDigitCh c = true)
    (hd3 : ∀ c ∈ D3, isDigitCh c = true) :
    scan ('r' :: 'g' :: 'b' :: '(' :: (D1 ++ ',' :: ' ' :: (D2 ++ ',' :: ' ' :: (D3 ++ [')'])))) =
      [Piece.tok (String.mk ('r' :: 'g' :: 'b' :: '(' ::
        (D1 ++ ',' :: ' ' :: (D2 ++ ',' :: ' ' :: (D3 ++ [')'])))))] := by
  rw [scan_cons_some _ _ _ (matchTokenAt_rgbTok D1 D2 D3 h1 hd1 hd2 hd3)]
  dsimp only
  rw [scan_nil]
  have he : (D1 ++ ',' :: ' ' :: (D2 ++ ',' :: ' ' :: D3)) ++ [')'] =
      D1 ++ ',' :: ' ' :: (D2 ++ ',' :: ' ' :: (D3 ++ [')'])) := by
    simp [List.append_assoc]
  rw [he]

theorem jsToLower_hash (d1 d2 d3 d4 d5 d6 : Char) :
    jsToLower (String.mk ['#', d1, d2, d3, d4, d5, d6]) =
      String.mk ['#', jsToLowerCh d1, jsToLowerCh d2, jsToLowerCh d3, jsToLowerCh d4,
        jsToLowerCh d5, jsToLowerCh d6] := by
  show String.mk (List.map jsToLowerCh ['#', d1, d2, d3, d4, d5, d6]) = _
  simp only [List.map_cons, List.map_nil]
  rw [show jsToLowerCh '#' = '#' from by decide]

theorem hexTok_to_rgb (M : JsMath) (d1 d2 d3 d4 d5 d6 : Char)
    (h1 : isHexDigitCh d1 = true) (h2 : isHexDigitCh d2 = true)
    (h3 : isHexDigitCh d3 = true) (h4 : isHexDigitCh d4 = true)
    (h5 : isHexDigitCh d5 = true) (h6 : isHexDigitCh d6 = true) :
    convertCssColors M (String.mk ['#', d1, d2, d3, d4, d5, d6]) ⟨("rgb"), true⟩ =
      String.mk ('r' :: 'g' :: 'b' :: '(' ::
        (natDigits (parseHexCh [jsToLowerCh d1, jsToLowerCh d2]) ++ ',' :: ' ' ::
          (natDigits (parseHexCh [jsToLowerCh d3, jsToLowerCh d4]) ++ ',' :: ' ' ::
            (natDigits (parseHexCh [jsToLowerCh d5, jsToLowerCh d6]) ++ [')'])))) := by
  have hscan : scan (String.mk ['#', d1, d2, d3, d4, d5, d6]).data =
      [Piece.tok (String.mk ['#', d1, d2, d3, d4, d5, d6])] := by
    show scan ('#' :: [d1, d2, d3, d4, d5, d6]) = _
    rw [scan_cons_some _ _ _ (matchTokenAt_hash [d1, d2, d3, d4, d5, d6]
      (by show (3 : Nat) ≤ 6; omega) (by show (6 : Nat) ≤ 8; omega)
      (by
        intro c hc
        simp only [List.mem_cons] at hc
        rcases hc with rfl | rfl | rfl | rfl | rfl | rfl | hc
        · exact h1
        · exact h2
        · exact h3
        · exact h4
        · exact h5
        · exact h6
        · simp at hc))]
    rw [scan_nil]
  rw [convertCssColors_single_tok M _ _ hscan]
  have hlast : (['#', jsToLowerCh d1, jsToLowerCh d2, jsToLowerCh d3, jsToLowerCh d4,
      jsToLowerCh d5, jsToLowerCh d6] : List Char).getLast? = some (jsToLowerCh d6) := by
    rw [getLast?_cons_of_ne_nil _ _ (by simp), getLast?_cons_of_ne_nil _ _ (by simp),
      getLast?_cons_of_ne_nil _ _ (by simp), getLast?_cons_of_ne_nil _ _ (by simp),
      getLast?_cons_of_ne_nil _ _ (by simp), getLast?_cons_of_ne_nil _ _ (by simp)]
    rfl
  have htrim : jsTrim (String.mk ['#', jsToLowerCh d1, jsToLowerCh d2, jsToLowerCh d3,
      jsToLowerCh d4, jsToLowerCh d5, jsToLowerCh d6]) =
      String.mk ['#', jsToLowerCh d1, jsToLowerCh d2, jsToLowerCh d3, jsToLowerCh d4,
        jsToLowerCh d5, jsToLowerCh d6] := by
    refine jsTrim_id _ (fun c hc => ?_) (fun c hc => ?_)
    · replace hc : some '#' = some c := hc
      obtain rfl := Option.some.inj hc
      decide
    · replace hc : (['#', jsToLowerCh d1, jsToLowerCh d2, jsToLowerCh d3, jsToLowerCh d4,
          jsToLowerCh d5, jsToLowerCh d6] : List Char).getLast? = some c := hc
      rw [hlast] at hc
      obtain rfl := Option.some.inj hc
      exact isSpaceCh_of_lowerHex d6 h6
  have hparse : parseColor M (String.mk ['#', jsToLowerCh d1, jsToLowerCh d2, jsToLowerCh d3,
      jsToLowerCh d4, jsToLowerCh d5, jsToLowerCh d6]) =
      some ⟨(parseHexCh [jsToLowerCh d1, jsToLowerCh d2] : ℚ),
        (parseHexCh [jsToLowerCh d3, jsToLowerCh d4] : ℚ),
        (parseHexCh [jsToLowerCh d5, jsToLowerCh d6] : ℚ), none⟩ := rfl
  have hb1 : ((parseHexCh [jsToLowerCh d1, jsToLowerCh d2] : ℚ)) ≤ 255 := by
    have := parseHexCh_pair_lt (jsToLowerCh d1) (jsToLowerCh d2)
    exact_mod_cast Nat.lt_succ_iff.mp this
  have hb2 : ((parseHexCh [jsToLowerCh d3, jsToLowerCh d4] : ℚ)) ≤ 255 := by
    have := parseHexCh_pair_lt (jsToLowerCh d3) (jsToLowerCh d4)
    exact_mod_cast Nat.lt_succ_iff.mp this
  have hb3 : ((parseHexCh [jsToLowerCh d5, jsToLowerCh d6] : ℚ)) ≤ 255 := by
    have := parseHexCh_pair_lt (jsToLowerCh d5) (jsToLowerCh d6)
    exact_mod_cast Nat.lt_succ_iff.mp this
  have hpc : parseClamped M (String.mk ['#', d1, d2, d3, d4, d5, d6]) =
      some ⟨(parseHexCh [jsToLowerCh d1, jsToLowerCh d2] : ℚ),
        (parseHexCh [jsToLowerCh d3, jsToLowerCh d4] : ℚ),
        (parseHexCh [jsToLowerCh d5, jsToLowerCh d6] : ℚ), none⟩ := by
    unfold parseClamped cleanedTok
    rw [jsToLower_hash, htrim, hparse]
    dsimp only [Option.map]
    rw [clampRgb_id _ (Nat.cast_nonneg _) hb1 (Nat.cast_nonneg _) hb2 (Nat.cast_nonneg _) hb3]
  unfold convertToken
  rw [hpc]
  dsimp only
  rw [if_neg (by decide), if_neg (by decide), if_pos rfl]
  show rgbBranch _ true = _
  unfold rgbBranch
  dsimp only
  rw [if_pos rfl]
  simp only [jsRound_natCast, jsIntStr_natCast]
  have hext : ∀ s t : String, s.data = t.data → s = t := fun s t h => by
    cases s
    cases t
    exact congrArg String.mk h
  apply hext
  simp only [String.data_append, List.append_assoc]
  simp only [show ∀ n : Nat, (jsNatRepr n).data = natDigits n from fun n => rfl]
  simp [List.cons_append]

theorem rgbTok_to_hex (M : JsMath) (n1 n2 n3 : Nat)
    (hn1 : n1 < 256) (hn2 : n2 < 256) (hn3 : n3 < 256) :
    convertCssColors M (String.mk ('r' :: 'g' :: 'b' :: '(' ::
        (natDigits n1 ++ ',' :: ' ' :: (natDigits n2 ++ ',' :: ' ' :: (natDigits n3 ++ [')'])))))
      ⟨("hex"), true⟩ =
      String.mk ['#', hexCh (n1 / 16), hexCh (n1 % 16), hexCh (n2 / 16), hexCh (n2 % 16),
        hexCh (n3 / 16), hexCh (n3 % 16)] := by
  have hscan : scan (String.mk ('r' :: 'g' :: 'b' :: '(' :: (natDigits n1 ++ ',' :: ' ' ::
      (natDigits n2 ++ ',' :: ' ' :: (natDigits n3 ++ [')']))))).data =
      [Piece.tok (String.mk ('r' :: 'g' :: 'b' :: '(' :: (natDigits n1 ++ ',' :: ' ' ::
        (natDigits n2 ++ ',' :: ' ' :: (natDigits n3 ++ [')'])))))] :=
    scan_rgbTok (natDigits n1) (natDigits n2) (natDigits n3) (natDigits_ne_nil n1)
      (natDigits_all_digit n1) (natDigits_all_digit n2) (natDigits_all_digit n3)
  rw [convertCssColors_single_tok M _ _ hscan]
  have hmem : ∀ c ∈ ('r' :: 'g' :: 'b' :: '(' :: (natDigits n1 ++ ',' :: ' ' ::
      (natDigits n2 ++ ',' :: ' ' :: (natDigits n3 ++ [')'])))), c.toNat < 65 ∨ 90 < c.toNat := by
    intro c hc
    simp only [List.mem_cons, List.mem_append] at hc
    rcases hc with rfl | rfl | rfl | rfl | hc | rfl | rfl | hc | rfl | rfl | hc | rfl | hc
    · decide
    · decide
    · decide
    · decide
    · exact lower_inert_digit c (natDigits_all_digit n1 c hc)
    · decide
    · decide
    · exact lower_inert_digit c (natDigits_all_digit n2 c hc)
    · decide
    · decide
    · exact lower_inert_digit c (natDigits_all_digit n3 c hc)
    · decide
    · simp at hc
  have hlast : (('r' :: 'g' :: 'b' :: '(' :: (natDigits n1 ++ ',' :: ' ' ::
      (natDigits n2 ++ ',' :: ' ' :: (natDigits n3 ++ [')'])))) : List Char).getLast? =
      some ')' := by
    rw [getLast?_cons_of_ne_nil _ _ (by simp), getLast?_cons_of_ne_nil _ _ (by simp),
      getLast?_cons_of_ne_nil _ _ (by simp), getLast?_cons_of_ne_nil _ _ (by simp)]
    rw [List.getLast?_append_of_ne_nil _ (by simp)]
    rw [getLast?_cons_of_ne_nil _ _ (by simp), getLast?_cons_of_ne_nil _ _ (by simp)]
    rw [List.getLast?_append_of_ne_nil _ (by simp)]
    rw [getLast?_cons_of_ne_nil _ _ (by simp), getLast?_cons_of_ne_nil _ _ (by simp)]
    rw [List.getLast?_append_of_ne_nil _ (by simp)]
    rfl
  have hcln : cleanedTok (String.mk ('r' :: 'g' :: 'b' :: '(' :: (natDigits n1 ++ ',' :: ' ' ::
      (natDigits n2 ++ ',' :: ' ' :: (natDigits n3 ++ [')']))))) =
      String.mk ('r' :: 'g' :: 'b' :: '(' :: (natDigits n1 ++ ',' :: ' ' ::
        (natDigits n2 ++ ',' :: ' ' :: (natDigits n3 ++ [')'])))) := by
    unfold cleanedTok
    rw [jsToLower_id _ hmem]
    refine jsTrim_id _ (fun c hc => ?_) (fun c hc => ?_)
    · replace hc : some 'r' = some c := hc
      obtain rfl := Option.some.inj hc
      decide
    · replace hc : (('r' :: 'g' :: 'b' :: '(' :: (natDigits n1 ++ ',' :: ' ' ::
          (natDigits n2 ++ ',' :: ' ' :: (natDigits n3 ++ [')'])))) : List Char).getLast? =
          some c := hc
      rw [hlast] at hc
      obtain rfl := Option.some.inj hc
      decide
  have hpcol : parseColor M (String.mk ('r' :: 'g' :: 'b' :: '(' :: (natDigits n1 ++ ',' :: ' ' ::
      (natDigits n2 ++ ',' :: ' ' :: (natDigits n3 ++ [')']))))) =
      some ⟨(n1 : ℚ), (n2 : ℚ), (n3 : ℚ), none⟩ := by
    unfold parseColor
    have hpre : (['r', 'g', 'b'] : List Char).isPrefixOf
        (String.mk ('r' :: 'g' :: 'b' :: '(' :: (natDigits n1 ++ ',' :: ' ' ::
          (natDigits n2 ++ ',' :: ' ' :: (natDigits n3 ++ [')']))))).data = true := rfl
    rw [if_neg (fun hcon => Bool.noConfusion hcon), if_pos hpre]
    exact rgbStringToRgb_digits n1 n2 n3
  have hq1 : ((n1 : ℚ)) ≤ 255 := by exact_mod_cast Nat.lt_succ_iff.mp hn1
  have hq2 : ((n2 : ℚ)) ≤ 255 := by exact_mod_cast Nat.lt_succ_iff.mp hn2
  have hq3 : ((n3 : ℚ)) ≤ 255 := by exact_mod_cast Nat.lt_succ_iff.mp hn3
  have hpc : parseClamped M (String.mk ('r' :: 'g' :: 'b' :: '(' :: (natDigits n1 ++ ',' :: ' ' ::
      (natDigits n2 ++ ',' :: ' ' :: (natDigits n3 ++ [')']))))) =
      some ⟨(n1 : ℚ), (n2 : ℚ), (n3 : ℚ), none⟩ := by
    unfold parseClamped
    rw [hcln, hpcol]
    dsimp only [Option.map]
    rw [clampRgb_id _ (Nat.cast_nonneg _) hq1 (Nat.cast_nonneg _) hq2 (Nat.cast_nonneg _) hq3]
  unfold convertToken
  rw [hpc]
  dsimp only
  rw [if_neg (by decide), if_pos rfl]
  show hexBranch _ true = _
  unfold hexBranch rgbToHex
  dsimp only
  rw [if_pos rfl]
  rw [toHexByte_nat n1 hn1, toHexByte_nat n2 hn2, toHexByte_nat n3 hn3]
  rfl

/-- C3: a 6-digit hex token converted to rgb format (css syntax) and the
result converted to hex format (css syntax) gives back the original hex
token lowercased, for every choice of the transcendental functions. -/
theorem c3_hex_rgb_hex (M : JsMath) (d1 d2 d3 d4 d5 d6 : Char)
    (h1 : isHexDigitCh d1 = true) (h2 : isHexDigitCh d2 = true)
    (h3 : isHexDigitCh d3 = true) (h4 : isHexDigitCh d4 = true)
    (h5 : isHexDigitCh d5 = true) (h6 : isHexDigitCh d6 = true) :
    convertCssColors M
        (convertCssColors M (String.mk ['#', d1, d2, d3, d4, d5, d6]) ⟨("rgb"), true⟩)
        ⟨("hex"), true⟩ =
      jsToLower (String.mk ['#', d1, d2, d3, d4, d5, d6]) := by
  rw [hexTok_to_rgb M d1 d2 d3 d4 d5 d6 h1 h2 h3 h4 h5 h6]
  rw [rgbTok_to_hex M _ _ _ (parseHexCh_pair_lt _ _) (parseHexCh_pair_lt _ _)
    (parseHexCh_pair_lt _ _)]
  rw [jsToLower_hash]
  have key : ∀ a b : Char, isHexDigitCh a = true → isHexDigitCh b = true →
      hexCh (parseHexCh [jsToLowerCh a, jsToLowerCh b] / 16) = jsToLowerCh a ∧
      hexCh (parseHexCh [jsToLowerCh a, jsToLowerCh b] % 16) = jsToLowerCh b := by
    intro a b ha hb
    have hva := hexDigitVal_le15 (jsToLowerCh a)
    have hvb := hexDigitVal_le15 (jsToLowerCh b)
    rw [parseHexCh_pair]
    constructor
    · rw [show (hexDigitVal (jsToLowerCh a) * 16 + hexDigitVal (jsToLowerCh b)) / 16 =
        hexDigitVal (jsToLowerCh a) from by omega]
      exact hexCh_of_lower _ (hexLower_range a ha)
    · rw [show (hexDigitVal (jsToLowerCh a) * 16 + hexDigitVal (jsToLowerCh b)) % 16 =
        hexDigitVal (jsToLowerCh b) from by omega]
      exact hexCh_of_lower _ (hexLower_range b hb)
  rw [(key d1 d2 h1 h2).1, (key d1 d2 h1 h2).2, (key d3 d4 h3 h4).1, (key d3 d4 h3 h4).2,
    (key d5 d6 h5 h6).1, (key d5 d6 h5 h6).2]

/-- C3 witness: the roundtrip at the concrete token `#6750A4` (which
comes back as `#6750a4`). -/
theorem c3_hex_rgb_hex_witness :
    isHexDigitCh '6' = true ∧ isHexDigitCh '7' = true ∧ isHexDigitCh '5' = true ∧
    isHexDigitCh '0' = true ∧ isHexDigitCh 'A' = true ∧ isHexDigitCh '4' = true ∧
    convertCssColors jsMath0
        (convertCssColors jsMath0 (String.mk ['#', '6', '7', '5', '0', 'A', '4'])
          ⟨("rgb"), true⟩)
        ⟨("hex"), true⟩ =
      jsToLower (String.mk ['#', '6', '7', '5', '0', 'A', '4']) :=
  ⟨by decide, by decide, by decide, by decide, by decide, by decide,
    c3_hex_rgb_hex jsMath0 '6' '7' '5' '0' 'A' '4' (by decide) (by decide) (by decide)
      (by decide) (by decide) (by decide)⟩

/-! ## C10: the rgb pattern rejects signs, decimal points and a percent alpha -/

theorem digit_le57_ne41 (c : Char) (h : isDigitCh c = true) :
    c.toNat ≤ 57 ∧ c.toNat ≠ 41 := by
  rw [isDigitCh_iff] at h
  omega

theorem notRParen_of_ne41 (c : Char) (h : c.toNat ≠ 41) : notRParen c = true := by
  simpa [notRParen] using h

theorem inert_of_le57 (c : Char) (h : c.toNat ≤ 57) : c.toNat < 65 ∨ 90 < c.toNat := by
  omega

theorem ne_r_of_le57 (c : Char) (h : c.toNat ≤ 57) : c ≠ 'r' := by
  intro hcon
  subst hcon
  revert h
  decide

theorem matchRgbAt_none_of_head (c : Char) (t : List Char) (h : c ≠ 'r') :
    matchRgbAt (c :: t) = none := by
  unfold matchRgbAt
  match t with
  | [] => rfl
  | [c2] => rfl
  | c2 :: c3 :: rest =>
    dsimp only
    rw [if_neg (fun hcon => h hcon.1)]

theorem firstRgbMatch_none_of_all (cs : List Char) (h : ∀ c ∈ cs, c ≠ 'r') :
    firstRgbMatch cs = none := by
  induction cs with
  | nil => rfl
  | cons c t ih =>
    unfold firstRgbMatch
    rw [matchRgbAt_none_of_head c t (h c (by simp))]
    exact ih (fun x hx => h x (by simp [hx]))

theorem funcTokTail_gen (A : List Char) (hne : A ≠ [])
    (hnp : ∀ c ∈ A, notRParen c = true) (rest : List Char) :
    funcTokTail ('(' :: (A ++ ')' :: rest)) = some ('(' :: (A ++ [')']), rest) := by
  have hs := span_all_append notRParen A ')' rest hnp (by decide)
  unfold funcTokTail
  dsimp only
  rw [if_pos rfl, hs.1, hs.2, if_neg hne]
  rfl

theorem matchFuncTok_rgbGen (A : List Char) (hne : A ≠ [])
    (hnp : ∀ c ∈ A, notRParen c = true) :
    matchFuncTok ['r', 'g', 'b'] true ('r' :: 'g' :: 'b' :: '(' :: (A ++ [')'])) =
      some ('r' :: 'g' :: 'b' :: '(' :: (A ++ [')']), []) := by
  unfold matchFuncTok
  have hpre : (['r', 'g', 'b'] : List Char).isPrefixOf
      ('r' :: 'g' :: 'b' :: '(' :: (A ++ [')'])) = true := rfl
  rw [if_pos hpre]
  rw [show ('r' :: 'g' :: 'b' :: '(' :: (A ++ [')'])).drop
    (['r', 'g', 'b'] : List Char).length = '(' :: (A ++ [')']) from rfl]
  dsimp only
  rw [if_neg (by simp)]
  rw [funcTokTail_gen A hne hnp []]
  rfl

theorem matchFuncTok_rgbaGen (A : List Char) (hne : A ≠ [])
    (hnp : ∀ c ∈ A, notRParen c = true) :
    matchFuncTok ['r', 'g', 'b'] true ('r' :: 'g' :: 'b' :: 'a' :: '(' :: (A ++ [')'])) =
      some ('r' :: 'g' :: 'b' :: 'a' :: '(' :: (A ++ [')']), []) := by
  unfold matchFuncTok
  have hpre : (['r', 'g', 'b'] : List Char).isPrefixOf
      ('r' :: 'g' :: 'b' :: 'a' :: '(' :: (A ++ [')'])) = true := rfl
  rw [if_pos hpre]
  rw [show ('r' :: 'g' :: 'b' :: 'a' :: '(' :: (A ++ [')'])).drop
    (['r', 'g', 'b'] : List Char).length = 'a' :: '(' :: (A ++ [')']) from rfl]
  dsimp only
  rw [if_pos ⟨rfl, rfl⟩]
  rw [funcTokTail_gen A hne hnp []]
  rfl

theorem matchTokenAt_rgbGen (A : List Char) (hne : A ≠ [])
    (hnp : ∀ c ∈ A, notRParen c = true) :
    matchTokenAt ('r' :: 'g' :: 'b' :: '(' :: (A ++ [')'])) =
      some ('r' :: 'g' :: 'b' :: '(' :: (A ++ [')']), []) := by
  unfold matchTokenAt
  rw [matchFuncTok_none_head 'h' ['s', 'l'] true 'r' _ (by decide)]
  rw [matchFuncTok_rgbGen A hne hnp]

theorem matchTokenAt_rgbaGen (A : List Char) (hne : A ≠ [])
    (hnp : ∀ c ∈ A, notRParen c = true) :
    matchTokenAt ('r' :: 'g' :: 'b' :: 'a' :: '(' :: (A ++ [')'])) =
      some ('r' :: 'g' :: 'b' :: 'a' :: '(' :: (A ++ [')']), []) := by
  unfold matchTokenAt
  rw [matchFuncTok_none_head 'h' ['s', 'l'] true 'r' _ (by decide)]
  rw [matchFuncTok_rgbaGen A hne hnp]

theorem scan_rgbGen (A : List Char) (hne : A ≠ [])
    (hnp : ∀ c ∈ A, notRParen c = true) :
    scan ('r' :: 'g' :: 'b' :: '(' :: (A ++ [')'])) =
      [Piece.tok (String.mk ('r' :: 'g' :: 'b' :: '(' :: (A ++ [')'])))] := by
  rw [scan_cons_some _ _ _ (matchTokenAt_rgbGen A hne hnp)]
  dsimp only
  rw [scan_nil]

theorem scan_rgbaGen (A : List Char) (hne : A ≠ [])
    (hnp : ∀ c ∈ A, notRParen c = true) :
    scan ('r' :: 'g' :: 'b' :: 'a' :: '(' :: (A ++ [')'])) =
      [Piece.tok (String.mk ('r' :: 'g' :: 'b' :: 'a' :: '(' :: (A ++ [')'])))] := by
  rw [scan_cons_some _ _ _ (matchTokenAt_rgbaGen A hne hnp)]
  dsimp only
  rw [scan_nil]

theorem lastCh_rgbTok (A : List Char) :
    (('r' :: 'g' :: 'b' :: '(' :: (A ++ [')'])) : List Char).getLast? = some ')' := by
  rw [getLast?_cons_of_ne_nil _ _ (by simp), getLast?_cons_of_ne_nil _ _ (by simp),
    getLast?_cons_of_ne_nil _ _ (by simp), getLast?_cons_of_ne_nil _ _ (by simp)]
  rw [List.getLast?_append_of_ne_nil _ (by simp)]
  rfl

theorem lastCh_rgbaTok (A : List Char) :
    (('r' :: 'g' :: 'b' :: 'a' :: '(' :: (A ++ [')'])) : List Char).getLast? = some ')' := by
  rw [getLast?_cons_of_ne_nil _ _ (by simp), getLast?_cons_of_ne_nil _ _ (by simp),
    getLast?_cons_of_ne_nil _ _ (by simp), getLast?_cons_of_ne_nil _ _ (by simp),
    getLast?_cons_of_ne_nil _ _ (by simp)]
  rw [List.getLast?_append_of_ne_nil _ (by simp)]
  rfl

theorem cleanedTok_id (s : String)
    (hinert : ∀ c ∈ s.data, c.toNat < 65 ∨ 90 < c.toNat)
    (hhead : ∀ c, s.data.head? = some c → isSpaceCh c = false)
    (hlastf : ∀ c, s.data.getLast? = some c → isSpaceCh c = false) :
    cleanedTok s = s := by
  unfold cleanedTok
  rw [jsToLower_id s hinert]
  exact jsTrim_id s hhead hlastf

theorem memA1 (a b c : ℕ) : ∀ x ∈ (natDigits a ++ ',' :: ' ' :: '-' ::
    (natDigits b ++ ',' :: ' ' :: natDigits c)), x.toNat ≤ 57 ∧ x.toNat ≠ 41 := by
  intro x hx
  simp only [List.mem_cons, List.mem_append] at hx
  rcases hx with hx | rfl | rfl | rfl | hx | rfl | rfl | hx
  · exact digit_le57_ne41 x (natDigits_all_digit a x hx)
  · decide
  · decide
  · decide
  · exact digit_le57_ne41 x (natDigits_all_digit b x hx)
  · decide
  · decide
  · exact digit_le57_ne41 x (natDigits_all_digit c x hx)

theorem memA2 (a b c d : ℕ) : ∀ x ∈ (natDigits a ++ '.' ::
    (natDigits b ++ ',' :: ' ' :: (natDigits c ++ ',' :: ' ' :: natDigits d))),
    x.toNat ≤ 57 ∧ x.toNat ≠ 41 := by
  intro x hx
  simp only [List.mem_cons, List.mem_append] at hx
  rcases hx with hx | rfl | hx | rfl | rfl | hx | rfl | rfl | hx
  · exact digit_le57_ne41 x (natDigits_all_digit a x hx)
  · decide
  · exact digit_le57_ne41 x (natDigits_all_digit b x hx)
  · decide
  · decide
  · exact digit_le57_ne41 x (natDigits_all_digit c x hx)
  · decide
  · decide
  · exact digit_le57_ne41 x (natDigits_all_digit d x hx)

theorem memA3 (a b c d : ℕ) : ∀ x ∈ (natDigits a ++ ',' :: ' ' ::
    (natDigits b ++ ',' :: ' ' :: (natDigits c ++ ',' :: ' ' :: (natDigits d ++ ['%'])))),
    x.toNat ≤ 57 ∧ x.toNat ≠ 41 := by
  intro x hx
  simp only [List.mem_cons, List.mem_append] at hx
  rcases hx with hx | rfl | rfl | hx | rfl | rfl | hx | rfl | rfl | hx | rfl | hx
  · exact digit_le57_ne41 x (natDigits_all_digit a x hx)
  · decide
  · decide
  · exact digit_le57_ne41 x (natDigits_all_digit b x hx)
  · decide
  · decide
  · exact digit_le57_ne41 x (natDigits_all_digit c x hx)
  · decide
  · decide
  · exact digit_le57_ne41 x (natDigits_all_digit d x hx)
  · decide
  · simp at hx

theorem matchRgbArgs_neg (a b c : ℕ) :
    matchRgbArgs (natDigits a ++ ',' :: ' ' :: '-' ::
      (natDigits b ++ ',' :: ' ' :: (natDigits c ++ [')']))) = none := by
  have hc1 : isRgbSepCh ',' = true := by decide
  have hc2 : isRgbSepCh ' ' = true := by decide
  have hneg : isRgbSepCh '-' = false := by decide
  unfold matchRgbArgs
  dsimp only
  have s1 := span_all_append isDigitCh (natDigits a) ','
    (' ' :: '-' :: (natDigits b ++ ',' :: ' ' :: (natDigits c ++ [')'])))
    (natDigits_all_digit a) (by decide)
  rw [s1.1, s1.2, if_neg (natDigits_ne_nil a)]
  have s2t : ((',' :: ' ' :: '-' ::
      (natDigits b ++ ',' :: ' ' :: (natDigits c ++ [')'])))).takeWhile isRgbSepCh =
      [',', ' '] := by
    simp [List.takeWhile_cons, hc1, hc2, hneg]
  have s2d : ((',' :: ' ' :: '-' ::
      (natDigits b ++ ',' :: ' ' :: (natDigits c ++ [')'])))).dropWhile isRgbSepCh =
      '-' :: (natDigits b ++ ',' :: ' ' :: (natDigits c ++ [')'])) := by
    simp [List.dropWhile_cons, hc1, hc2, hneg]
  rw [s2t, s2d, if_neg (by decide)]
  have s3 : (('-' :: (natDigits b ++ ',' :: ' ' :: (natDigits c ++ [')'])))).takeWhile
      isDigitCh = [] := by
    simp [List.takeWhile_cons, show isDigitCh '-' = false from by decide]
  rw [s3]
  rw [if_pos rfl]

theorem matchRgbArgs_dot (a b c d : ℕ) :
    matchRgbArgs (natDigits a ++ '.' ::
      (natDigits b ++ ',' :: ' ' :: (natDigits c ++ ',' :: ' ' :: (natDigits d ++ [')'])))) =
      none := by
  unfold matchRgbArgs
  dsimp only
  have s1 := span_all_append isDigitCh (natDigits a) '.'
    (natDigits b ++ ',' :: ' ' :: (natDigits c ++ ',' :: ' ' :: (natDigits d ++ [')'])))
    (natDigits_all_digit a) (by decide)
  rw [s1.1, s1.2, if_neg (natDigits_ne_nil a)]
  have s2 : (('.' :: (natDigits b ++ ',' :: ' ' ::
      (natDigits c ++ ',' :: ' ' :: (natDigits d ++ [')']))))).takeWhile isRgbSepCh = [] := by
    simp [List.takeWhile_cons, show isRgbSepCh '.' = false from by decide]
  rw [s2]
  rw [if_pos rfl]

theorem rgbAlphaTail_pct (D : List Char) (hne : D ≠ [])
    (hd : ∀ c ∈ D, isDigitCh c = true) :
    rgbAlphaTail (',' :: ' ' :: (D ++ '%' :: [')'])) = none := by
  obtain ⟨dh, Dt, rfl⟩ := List.exists_cons_of_ne_nil hne
  have hdh : isDigitCh dh = true := hd dh (by simp)
  simp only [List.cons_append]
  unfold rgbAlphaTail
  have h0 : ((',' :: ' ' :: dh :: (Dt ++ '%' :: [')']))).dropWhile isSpaceCh =
      ',' :: ' ' :: dh :: (Dt ++ '%' :: [')']) := by
    simp [List.dropWhile_cons, show isSpaceCh ',' = false from by decide]
  rw [h0]
  dsimp only
  rw [if_pos (Or.inl rfl)]
  have h1 : ((' ' :: dh :: (Dt ++ '%' :: [')']))).dropWhile isSpaceCh =
      dh :: (Dt ++ '%' :: [')']) := by
    simp [List.dropWhile_cons, show isSpaceCh ' ' = true from by decide,
      isSpaceCh_of_digit dh hdh]
  rw [h1]
  have hdd : ∀ c ∈ dh :: Dt, isDigitDotCh c = true := by
    intro c hc
    simp [isDigitDotCh, hd c hc]
  have s := span_all_append isDigitDotCh (dh :: Dt) '%' [')'] hdd (by decide)
  rw [List.cons_append] at s
  rw [s.1, s.2]
  rw [if_neg (by simp)]
  dsimp only
  rw [if_neg (by decide)]

theorem matchRgbArgs_pctAlpha (a b c d : ℕ) :
    matchRgbArgs (natDigits a ++ ',' :: ' ' ::
      (natDigits b ++ ',' :: ' ' :: (natDigits c ++ ',' :: ' ' ::
        (natDigits d ++ '%' :: [')'])))) = none := by
  obtain ⟨bh, Bt, hB⟩ := List.exists_cons_of_ne_nil (natDigits_ne_nil b)
  obtain ⟨ch, Ct, hC⟩ := List.exists_cons_of_ne_nil (natDigits_ne_nil c)
  have hbh : isDigitCh bh = true := natDigits_all_digit b bh (by rw [hB]; simp)
  have hch : isDigitCh ch = true := natDigits_all_digit c ch (by rw [hC]; simp)
  have hBall : ∀ x ∈ bh :: Bt, isDigitCh x = true := by
    rw [← hB]
    exact natDigits_all_digit b
  have hCall : ∀ x ∈ ch :: Ct, isDigitCh x = true := by
    rw [← hC]
    exact natDigits_all_digit c
  have hc1 : isRgbSepCh ',' = true := by decide
  have hc2 : isRgbSepCh ' ' = true := by decide
  rw [hB, hC]
  simp only [List.cons_append]
  unfold matchRgbArgs
  dsimp only
  have s1 := span_all_append isDigitCh (natDigits a) ','
    (' ' :: bh :: (Bt ++ ',' :: ' ' :: ch :: (Ct ++ ',' :: ' ' ::
      (natDigits d ++ '%' :: [')'])))) (natDigits_all_digit a) (by decide)
  rw [s1.1, s1.2, if_neg (natDigits_ne_nil a)]
  have s2t : ((',' :: ' ' :: bh :: (Bt ++ ',' :: ' ' :: ch :: (Ct ++ ',' :: ' ' ::
      (natDigits d ++ '%' :: [')']))))).takeWhile isRgbSepCh = [',', ' '] := by
    simp [List.takeWhile_cons, hc1, hc2, isRgbSepCh_of_digit bh hbh]
  have s2d : ((',' :: ' ' :: bh :: (Bt ++ ',' :: ' ' :: ch :: (Ct ++ ',' :: ' ' ::
      (natDigits d ++ '%' :: [')']))))).dropWhile isRgbSepCh =
      bh :: (Bt ++ ',' :: ' ' :: ch :: (Ct ++ ',' :: ' ' ::
        (natDigits d ++ '%' :: [')']))) := by
    simp [List.dropWhile_cons, hc1, hc2, isRgbSepCh_of_digit bh hbh]
  rw [s2t, s2d, if_neg (by decide)]
  have s3 := span_all_append isDigitCh (bh :: Bt) ','
    (' ' :: ch :: (Ct ++ ',' :: ' ' :: (natDigits d ++ '%' :: [')']))) hBall (by decide)
  rw [List.cons_append] at s3
  rw [s3.1, s3.2, if_neg (by simp)]
  have s4t : ((',' :: ' ' :: ch :: (Ct ++ ',' :: ' ' ::
      (natDigits d ++ '%' :: [')'])))).takeWhile isRgbSepCh = [',', ' '] := by
    simp [List.takeWhile_cons, hc1, hc2, isRgbSepCh_of_digit ch hch]
  have s4d : ((',' :: ' ' :: ch :: (Ct ++ ',' :: ' ' ::
      (natDigits d ++ '%' :: [')'])))).dropWhile isRgbSepCh =
      ch :: (Ct ++ ',' :: ' ' :: (natDigits d ++ '%' :: [')'])) := by
    simp [List.dropWhile_cons, hc1, hc2, isRgbSepCh_of_digit ch hch]
  rw [s4t, s4d, if_neg (by decide)]
  have s5 := span_all_append isDigitCh (ch :: Ct) ','
    (' ' :: (natDigits d ++ '%' :: [')'])) hCall (by decide)
  rw [List.cons_append] at s5
  rw [s5.1, s5.2, if_neg (by simp)]
  rw [rgbAlphaTail_pct (natDigits d) (natDigits_ne_nil d) (natDigits_all_digit d)]
  dsimp only
  rw [if_neg (by decide)]

theorem afterKw_a_lparen (r : List Char) : afterKw ('a' :: '(' :: r) = some r := by
  unfold afterKw
  dsimp only
  rw [if_pos rfl]
  rw [if_pos rfl]

theorem noR_of_rgbTok (A : List Char) (hA : ∀ x ∈ A, x.toNat ≤ 57 ∧ x.toNat ≠ 41) :
    ∀ x ∈ ('g' :: 'b' :: '(' :: (A ++ [')'])), x ≠ 'r' := by
  intro x hx
  rcases List.mem_cons.mp hx with rfl | hx
  · decide
  rcases List.mem_cons.mp hx with rfl | hx
  · decide
  rcases List.mem_cons.mp hx with rfl | hx
  · decide
  rcases List.mem_append.mp hx with hx | hx
  · exact ne_r_of_le57 x (hA x hx).1
  · rcases List.mem_cons.mp hx with rfl | hx
    · decide
    · simp at hx

theorem noR_of_rgbaTok (A : List Char) (hA : ∀ x ∈ A, x.toNat ≤ 57 ∧ x.toNat ≠ 41) :
    ∀ x ∈ ('g' :: 'b' :: 'a' :: '(' :: (A ++ [')'])), x ≠ 'r' := by
  intro x hx
  rcases List.mem_cons.mp hx with rfl | hx
  · decide
  rcases List.mem_cons.mp hx with rfl | hx
  · decide
  rcases List.mem_cons.mp hx with rfl | hx
  · decide
  rcases List.mem_cons.mp hx with rfl | hx
  · decide
  rcases List.mem_append.mp hx with hx | hx
  · exact ne_r_of_le57 x (hA x hx).1
  · rcases List.mem_cons.mp hx with rfl | hx
    · decide
    · simp at hx

theorem inert_of_rgbTok (A : List Char) (hA : ∀ x ∈ A, x.toNat ≤ 57 ∧ x.toNat ≠ 41) :
    ∀ x ∈ ('r' :: 'g' :: 'b' :: '(' :: (A ++ [')'])), x.toNat < 65 ∨ 90 < x.toNat := by
  intro x hx
  rcases List.mem_cons.mp hx with rfl | hx
  · decide
  rcases List.mem_cons.mp hx with rfl | hx
  · decide
  rcases List.mem_cons.mp hx with rfl | hx
  · decide
  rcases List.mem_cons.mp hx with rfl | hx
  · decide
  rcases List.mem_append.mp hx with hx | hx
  · exact inert_of_le57 x (hA x hx).1
  · rcases List.mem_cons.mp hx with rfl | hx
    · decide
    · simp at hx

theorem inert_of_rgbaTok (A : List Char) (hA : ∀ x ∈ A, x.toNat ≤ 57 ∧ x.toNat ≠ 41) :
    ∀ x ∈ ('r' :: 'g' :: 'b' :: 'a' :: '(' :: (A ++ [')'])),
      x.toNat < 65 ∨ 90 < x.toNat := by
  intro x hx
  rcases List.mem_cons.mp hx with rfl | hx
  · decide
  rcases List.mem_cons.mp hx with rfl | hx
  · decide
  rcases List.mem_cons.mp hx with rfl | hx
  · decide
  rcases List.mem_cons.mp hx with rfl | hx
  · decide
  rcases List.mem_cons.mp hx with rfl | hx
  · decide
  rcases List.mem_append.mp hx with hx | hx
  · exact inert_of_le57 x (hA x hx).1
  · rcases List.mem_cons.mp hx with rfl | hx
    · decide
    · simp at hx

theorem rgbFail_neg (a b c : ℕ) :
    rgbStringToRgb (String.mk ('r' :: 'g' :: 'b' :: '(' ::
      ((natDigits a ++ ',' :: ' ' :: '-' :: (natDigits b ++ ',' :: ' ' :: natDigits c)) ++
        [')']))) = none := by
  have hma : matchRgbAt ('r' :: 'g' :: 'b' :: '(' ::
      ((natDigits a ++ ',' :: ' ' :: '-' :: (natDigits b ++ ',' :: ' ' :: natDigits c)) ++
        [')'])) = none := by
    unfold matchRgbAt
    dsimp only
    rw [if_pos ⟨rfl, rfl, rfl⟩, afterKw_lparen]
    dsimp only [Option.bind]
    rw [show (natDigits a ++ ',' :: ' ' :: '-' ::
        (natDigits b ++ ',' :: ' ' :: natDigits c)) ++ [')'] =
      natDigits a ++ ',' :: ' ' :: '-' ::
        (natDigits b ++ ',' :: ' ' :: (natDigits c ++ [')'])) from by
        simp [List.append_assoc]]
    exact matchRgbArgs_neg a b c
  unfold rgbStringToRgb
  dsimp only
  have hfm : firstRgbMatch ('r' :: 'g' :: 'b' :: '(' ::
      ((natDigits a ++ ',' :: ' ' :: '-' :: (natDigits b ++ ',' :: ' ' :: natDigits c)) ++
        [')'])) = none := by
    unfold firstRgbMatch
    rw [hma]
    dsimp only
    exact firstRgbMatch_none_of_all _ (noR_of_rgbTok _ (memA1 a b c))
  rw [hfm]

theorem rgbFail_dot (a b c d : ℕ) :
    rgbStringToRgb (String.mk ('r' :: 'g' :: 'b' :: '(' ::
      ((natDigits a ++ '.' ::
        (natDigits b ++ ',' :: ' ' :: (natDigits c ++ ',' :: ' ' :: natDigits d))) ++
        [')']))) = none := by
  have hma : matchRgbAt ('r' :: 'g' :: 'b' :: '(' ::
      ((natDigits a ++ '.' ::
        (natDigits b ++ ',' :: ' ' :: (natDigits c ++ ',' :: ' ' :: natDigits d))) ++
        [')'])) = none := by
    unfold matchRgbAt
    dsimp only
    rw [if_pos ⟨rfl, rfl, rfl⟩, afterKw_lparen]
    dsimp only [Option.bind]
    rw [show (natDigits a ++ '.' ::
        (natDigits b ++ ',' :: ' ' :: (natDigits c ++ ',' :: ' ' :: natDigits d))) ++ [')'] =
      natDigits a ++ '.' ::
        (natDigits b ++ ',' :: ' ' :: (natDigits c ++ ',' :: ' ' :: (natDigits d ++ [')'])))
      from by simp [List.append_assoc]]
    exact matchRgbArgs_dot a b c d
  unfold rgbStringToRgb
  dsimp only
  have hfm : firstRgbMatch ('r' :: 'g' :: 'b' :: '(' ::
      ((natDigits a ++ '.' ::
        (natDigits b ++ ',' :: ' ' :: (natDigits c ++ ',' :: ' ' :: natDigits d))) ++
        [')'])) = none := by
    unfold firstRgbMatch
    rw [hma]
    dsimp only
    exact firstRgbMatch_none_of_all _ (noR_of_rgbTok _ (memA2 a b c d))
  rw [hfm]

theorem rgbFail_pct (a b c d : ℕ) :
    rgbStringToRgb (String.mk ('r' :: 'g' :: 'b' :: 'a' :: '(' ::
      ((natDigits a ++ ',' :: ' ' :: (natDigits b ++ ',' :: ' ' ::
        (natDigits c ++ ',' :: ' ' :: (natDigits d ++ ['%'])))) ++ [')']))) = none := by
  have hma : matchRgbAt ('r' :: 'g' :: 'b' :: 'a' :: '(' ::
      ((natDigits a ++ ',' :: ' ' :: (natDigits b ++ ',' :: ' ' ::
        (natDigits c ++ ',' :: ' ' :: (natDigits d ++ ['%'])))) ++ [')'])) = none := by
    unfold matchRgbAt
    dsimp only
    rw [if_pos ⟨rfl, rfl, rfl⟩, afterKw_a_lparen]
    dsimp only [Option.bind]
    rw [show (natDigits a ++ ',' :: ' ' :: (natDigits b ++ ',' :: ' ' ::
        (natDigits c ++ ',' :: ' ' :: (natDigits d ++ ['%'])))) ++ [')'] =
      natDigits a ++ ',' :: ' ' :: (natDigits b ++ ',' :: ' ' ::
        (natDigits c ++ ',' :: ' ' :: (natDigits d ++ '%' :: [')'])))
      from by simp [List.append_assoc]]
    exact matchRgbArgs_pctAlpha a b c d
  unfold rgbStringToRgb
  dsimp only
  have hfm : firstRgbMatch ('r' :: 'g' :: 'b' :: 'a' :: '(' ::
      ((natDigits a ++ ',' :: ' ' :: (natDigits b ++ ',' :: ' ' ::
        (natDigits c ++ ',' :: ' ' :: (natDigits d ++ ['%'])))) ++ [')'])) = none := by
    unfold firstRgbMatch
    rw [hma]
    dsimp only
    exact firstRgbMatch_none_of_all _ (noR_of_rgbaTok _ (memA3 a b c d))
  rw [hfm]

theorem convertCssColors_rgbFailTok (M : JsMath) (o : ConvertOptions) (L : List Char)
    (hscan : scan L = [Piece.tok (String.mk L)])
    (hclean : cleanedTok (String.mk L) = String.mk L)
    (hhash : (['#'] : List Char).isPrefixOf L = false)
    (hpre : (['r', 'g', 'b'] : List Char).isPrefixOf L = true)
    (hrgb : rgbStringToRgb (String.mk L) = none) :
    convertCssColors M (String.mk L) o = String.mk L := by
  have hsc2 : scan (String.mk L).data = [Piece.tok (String.mk L)] := hscan
  rw [convertCssColors_single_tok M _ _ hsc2]
  apply convertToken_of_fail
  unfold parseClamped
  rw [hclean]
  unfold parseColor
  have hp1 : ¬ ((['#'] : List Char).isPrefixOf (String.mk L).data = true) := by
    show ¬ ((['#'] : List Char).isPrefixOf L = true)
    rw [hhash]
    exact Bool.false_ne_true
  rw [if_neg hp1]
  have hp2 : (['r', 'g', 'b'] : List Char).isPrefixOf (String.mk L).data = true := hpre
  rw [if_pos hp2]
  rw [hrgb]
  rfl

/-- C10: the rgb channel pattern takes only unsigned integer channels and
the alpha group only digits and dots immediately before the closing
parenthesis, so an rgb token with a negative channel, one with a decimal
channel, and an rgba token with a `%`-suffixed alpha all fail the rgb
parse and pass through `convertCssColors` unchanged, for every format,
syntax style and numeric content. -/
theorem c10_rgb_pattern_rejects (M : JsMath) (o : ConvertOptions) (a b c d : ℕ) :
    convertCssColors M (String.mk ('r' :: 'g' :: 'b' :: '(' ::
        ((natDigits a ++ ',' :: ' ' :: '-' :: (natDigits b ++ ',' :: ' ' :: natDigits c)) ++
          [')']))) o =
      String.mk ('r' :: 'g' :: 'b' :: '(' ::
        ((natDigits a ++ ',' :: ' ' :: '-' :: (natDigits b ++ ',' :: ' ' :: natDigits c)) ++
          [')'])) ∧
    convertCssColors M (String.mk ('r' :: 'g' :: 'b' :: '(' ::
        ((natDigits a ++ '.' ::
          (natDigits b ++ ',' :: ' ' :: (natDigits c ++ ',' :: ' ' :: natDigits d))) ++
          [')']))) o =
      String.mk ('r' :: 'g' :: 'b' :: '(' ::
        ((natDigits a ++ '.' ::
          (natDigits b ++ ',' :: ' ' :: (natDigits c ++ ',' :: ' ' :: natDigits d))) ++
          [')'])) ∧
    convertCssColors M (String.mk ('r' :: 'g' :: 'b' :: 'a' :: '(' ::
        ((natDigits a ++ ',' :: ' ' :: (natDigits b ++ ',' :: ' ' ::
          (natDigits c ++ ',' :: ' ' :: (natDigits d ++ ['%'])))) ++ [')']))) o =
      String.mk ('r' :: 'g' :: 'b' :: 'a' :: '(' ::
        ((natDigits a ++ ',' :: ' ' :: (natDigits b ++ ',' :: ' ' ::
          (natDigits c ++ ',' :: ' ' :: (natDigits d ++ ['%'])))) ++ [')'])) := by
  refine ⟨?_, ?_, ?_⟩
  · refine convertCssColors_rgbFailTok M o _
      (scan_rgbGen _ (by simp)
        (fun x hx => notRParen_of_ne41 x (memA1 a b c x hx).2))
      (cleanedTok_id _ (inert_of_rgbTok _ (memA1 a b c)) (fun x hx => ?_) (fun x hx => ?_))
      rfl rfl (rgbFail_neg a b c)
    · replace hx : some 'r' = some x := hx
      obtain rfl := Option.some.inj hx
      decide
    · replace hx : (('r' :: 'g' :: 'b' :: '(' ::
          ((natDigits a ++ ',' :: ' ' :: '-' :: (natDigits b ++ ',' :: ' ' :: natDigits c)) ++
            [')'])) : List Char).getLast? = some x := hx
      rw [lastCh_rgbTok] at hx
      obtain rfl := Option.some.inj hx
      decide
  · refine convertCssColors_rgbFailTok M o _
      (scan_rgbGen _ (by simp)
        (fun x hx => notRParen_of_ne41 x (memA2 a b c d x hx).2))
      (cleanedTok_id _ (inert_of_rgbTok _ (memA2 a b c d)) (fun x hx => ?_) (fun x hx => ?_))
      rfl rfl (rgbFail_dot a b c d)
    · replace hx : some 'r' = some x := hx
      obtain rfl := Option.some.inj hx
      decide
    · replace hx : (('r' :: 'g' :: 'b' :: '(' ::
          ((natDigits a ++ '.' ::
            (natDigits b ++ ',' :: ' ' :: (natDigits c ++ ',' :: ' ' :: natDigits d))) ++
            [')'])) : List Char).getLast? = some x := hx
      rw [lastCh_rgbTok] at hx
      obtain rfl := Option.some.inj hx
      decide
  · refine convertCssColors_rgbFailTok M o _
      (scan_rgbaGen _ (by simp)
        (fun x hx => notRParen_of_ne41 x (memA3 a b c d x hx).2))
      (cleanedTok_id _ (inert_of_rgbaTok _ (memA3 a b c d)) (fun x hx => ?_) (fun x hx => ?_))
      rfl rfl (rgbFail_pct a b c d)
    · replace hx : some 'r' = some x := hx
      obtain rfl := Option.some.inj hx
      decide
    · replace hx : (('r' :: 'g' :: 'b' :: 'a' :: '(' ::
          ((natDigits a ++ ',' :: ' ' :: (natDigits b ++ ',' :: ' ' ::
            (natDigits c ++ ',' :: ' ' :: (natDigits d ++ ['%'])))) ++ [')'])) :
            List Char).getLast? = some x := hx
      rw [lastCh_rgbaTok] at hx
      obtain rfl := Option.some.inj hx
      decide

end ColorConv
